import Mathlib

/-!
# go-auth: OTP engine, credential store and validation

A shallow embedding of the phone-number OTP service.

* Go strings are modelled by Lean strings (sequences of Unicode scalar values, i.e. valid UTF-8,
  which is what the JSON request decoder hands to the services); `len` is the UTF-8 byte length.
* Instants (`time.Time`) and durations are integers (nanoseconds).
* The relational store is a record of three tables, each a list of rows in insertion order.  Every
  repository method is one atomic round trip on that record; primary keys and the unique index on
  `users.phone_number` are enforced by the inserts.  What the Go code reads from outside (the
  clock, the random source, freshly generated identifiers, a failing storage driver) is passed in
  explicitly as an environment record.
* What the Go library reads from its Unicode tables (`unicode.ToLower` beyond ASCII,
  `unicode.IsDigit` beyond Latin-1) depends on the Unicode version of the library and is passed
  in as a function.
* Log calls change neither the store nor a result and are left out.  Stored instants are kept
  exactly; the rounding of the storage engine to microseconds is not modelled.
-/

namespace GoAuth

/-! ## Strings -/

/-- Go `len(s)`: the number of bytes of the UTF-8 encoding of `s`. -/
def goLen : List Char → Nat
  | [] => 0
  | c :: cs => c.utf8Size + goLen cs

/-- Go `unicode.IsSpace`: in Latin-1 the characters tab, LF, VT, FF, CR, space, U+0085 and U+00A0;
beyond Latin-1 the `White_Space` table. -/
def unicodeIsSpace (r : Char) : Bool :=
  let n := r.toNat
  if n ≤ 0xFF then
    n == 0x09 || n == 0x0A || n == 0x0B || n == 0x0C || n == 0x0D || n == 0x20 || n == 0x85
      || n == 0xA0
  else
    n == 0x1680 || (0x2000 ≤ n && n ≤ 0x200A) || n == 0x2028 || n == 0x2029 || n == 0x202F
      || n == 0x205F || n == 0x3000

/-- The regular expression class `\d` and the Latin-1 branch of `unicode.IsDigit`: `0` to `9`. -/
def isAsciiDigit (r : Char) : Bool :=
  48 ≤ r.toNat && r.toNat ≤ 57

/-- Go `unicode.IsDigit`: `'0' <= r && r <= '9'` in Latin-1; beyond Latin-1 the table `Digit` of
the `unicode` package the program is built with decides (the decimal digits of the Unicode
version of that package), passed in as `digitTable`. -/
def unicodeIsDigit (digitTable : Char → Bool) (r : Char) : Bool :=
  if r.toNat ≤ 0xFF then isAsciiDigit r
  else digitTable r

/-- Characters left once the leading white space is cut. -/
def trimLeft (s : List Char) : List Char :=
  s.dropWhile unicodeIsSpace

/-- Go `strings.TrimSpace` on the characters of a string: leading and trailing white space (as
defined by `unicode.IsSpace`) removed. -/
def trimSpaceChars (s : List Char) : List Char :=
  (trimLeft (trimLeft s).reverse).reverse

/-- Go `strings.TrimSpace`. -/
def TrimSpace (s : String) : String :=
  ⟨trimSpaceChars s.data⟩

/-- Go `strings.Join`. -/
def stringsJoin : List String → String → String
  | [], _ => ""
  | [x], _ => x
  | x :: y :: rest, sep => x ++ sep ++ stringsJoin (y :: rest) sep

/-! ## pkg/utils/validation.go -/

/-- One validation finding (`utils.ValidationError`). -/
structure ValidationError where
  Field : String
  Message : String
  deriving DecidableEq, Repr

/-- The slice type `utils.ValidationErrors`. -/
abbrev ValidationErrors := List ValidationError

/-- Method `ValidationErrors.Error`: the findings rendered as `field: message`, comma separated. -/
def ValidationErrors.Error (ve : ValidationErrors) : String :=
  stringsJoin (ve.map (fun e => e.Field ++ ": " ++ e.Message)) ", "

/-- Method `ValidationErrors.HasErrors`: `len(ve) > 0`. -/
def ValidationErrors.HasErrors (ve : ValidationErrors) : Bool :=
  decide (ve.length > 0)

/-- The character class `[1-9]`. -/
def isDigit19 (r : Char) : Bool :=
  49 ≤ r.toNat && r.toNat ≤ 57

/-- The tail `[1-9]\d{1,14}$` of the phone pattern: one character `1`..`9`, then between one and
fourteen characters `0`..`9`, then the end of the text. -/
def phoneBodyMatch : List Char → Bool
  | [] => false
  | c :: ds => isDigit19 c && decide (1 ≤ ds.length) && decide (ds.length ≤ 14)
      && ds.all isAsciiDigit

/-- The compiled pattern `phoneRegex = ^\+?[1-9]\d{1,14}$` applied with `MatchString`: the whole
text is an optional `+` followed by the body.  (A text starting with `+` can only match with the
`+` consumed by `\+?`, because `[1-9]` rejects it.) -/
def phoneRegexMatch (s : List Char) : Bool :=
  match s with
  | '+' :: rest => phoneBodyMatch rest
  | _ => phoneBodyMatch s

/-- Function `ValidatePhoneNumber` of `validation.go`. -/
def ValidatePhoneNumber (phoneNumber : String) : ValidationErrors :=
  if phoneNumber = "" then
    [{ Field := "phone_number", Message := "phone number is required" }]
  else
    let trimmed := trimSpaceChars phoneNumber.data
    (if goLen trimmed < 10 then
        [{ Field := "phone_number", Message := "phone number must be at least 10 digits" }]
      else [])
    ++ (if goLen trimmed > 15 then
        [{ Field := "phone_number", Message := "phone number must not exceed 15 digits" }]
      else [])
    ++ (if phoneRegexMatch trimmed then []
      else [{ Field := "phone_number", Message := "invalid phone number format" }])

/-- Function `ValidateOTPCode` of `validation.go`; `digitTable` is the table of `unicode.IsDigit`
beyond Latin-1. -/
def ValidateOTPCode (digitTable : Char → Bool) (code : String) : ValidationErrors :=
  if code = "" then
    [{ Field := "code", Message := "OTP code is required" }]
  else
    let trimmed := trimSpaceChars code.data
    (if goLen trimmed ≠ 6 then
        [{ Field := "code", Message := "OTP code must be exactly 6 digits" }]
      else [])
    ++ (if trimmed.any (fun char => !unicodeIsDigit digitTable char) then
        [{ Field := "code", Message := "OTP code must contain only digits" }]
      else [])

/-- Function `ValidatePaginationParams` of `validation.go`. -/
def ValidatePaginationParams (page limit : Int) : ValidationErrors :=
  (if page < 1 then [{ Field := "page", Message := "page must be greater than 0" }] else [])
  ++ (if limit < 1 then [{ Field := "limit", Message := "limit must be greater than 0" }]
      else [])
  ++ (if limit > 100 then [{ Field := "limit", Message := "limit cannot exceed 100" }] else [])

/-- Go `unicode.ToLower`: within ASCII the letters `A`-`Z` are moved to `a`-`z` and every other
character is kept; beyond ASCII the case tables of the library decide, passed in as
`caseTable`. -/
def unicodeToLower (caseTable : Char → Char) (r : Char) : Char :=
  if r.toNat ≤ 0x7F then
    if 65 ≤ r.toNat ∧ r.toNat ≤ 90 then Char.ofNat (r.toNat + 32) else r
  else caseTable r

/-- Go `strings.ToLower` on the characters of a string. -/
def stringsToLower (caseTable : Char → Char) (s : List Char) : List Char :=
  s.map (unicodeToLower caseTable)

/-- The text `s` begins with the text `sub`. -/
def startsWith : List Char → List Char → Bool
  | _, [] => true
  | [], _ :: _ => false
  | c :: s, d :: sub => c == d && startsWith s sub

/-- Go `strings.Contains` on the characters of two strings. -/
def stringsContains : List Char → List Char → Bool
  | [], sub => startsWith [] sub
  | c :: s, sub => startsWith (c :: s) sub || stringsContains s sub

/-- The slice `maliciousPatterns` of `IsValidSearchQuery`. -/
def maliciousPatterns : List String :=
  ["<script", "javascript:", "onload=", "onerror=", "DROP TABLE", "DELETE FROM", "INSERT INTO",
   "UPDATE SET"]

/-- The loop of `IsValidSearchQuery` over the patterns: `false` at the first pattern the lowered
query contains, `true` when the patterns are exhausted. -/
def scanPatterns (caseTable : Char → Char) (lowerQuery : List Char) : List String → Bool
  | [] => true
  | pattern :: rest =>
    if stringsContains lowerQuery (stringsToLower caseTable pattern.data) then false
    else scanPatterns caseTable lowerQuery rest

/-- Function `IsValidSearchQuery` of `validation.go`. -/
def IsValidSearchQuery (caseTable : Char → Char) (query : String) : Bool :=
  if goLen query.data < 2 then false
  else if goLen query.data > 50 then false
  else scanPatterns caseTable (stringsToLower caseTable query.data) maliciousPatterns

/-- In the words of the specification: `q` contains `p` under case-insensitive substring
matching, that is, some stretch of `q` equals `p` once both are lowered. -/
def ContainsIgnoringCase (caseTable : Char → Char) (q p : List Char) : Prop :=
  ∃ before mid after, q = before ++ mid ++ after ∧
    mid.map (unicodeToLower caseTable) = p.map (unicodeToLower caseTable)

/-! ## pkg/utils/errors.go -/

/-- The domain error record `utils.AppError`. -/
structure AppError where
  Code : String
  Message : String
  HTTPCode : Nat
  Details : String := ""
  deriving DecidableEq, Repr

deriving instance DecidableEq for Except

/-- A Go `error` value as the services see it: either a `*AppError` or any other error, of which
only the text matters (`fmt.Errorf` results and raw driver errors). -/
inductive GoError where
  | app (e : AppError)
  | plain (text : String)
  deriving DecidableEq, Repr

/-- Method `AppError.Error`. -/
def AppError.Error (e : AppError) : String :=
  if e.Details ≠ "" then e.Code ++ ": " ++ e.Message ++ " (" ++ e.Details ++ ")"
  else e.Code ++ ": " ++ e.Message

/-- The text `err.Error()` of an error value. -/
def GoError.Error : GoError → String
  | .app e => e.Error
  | .plain text => text

/-- Sentinel `ErrInvalidOTP`. -/
def ErrInvalidOTP : AppError :=
  { Code := "INVALID_OTP", Message := "Invalid or expired OTP", HTTPCode := 401 }

/-- Sentinel `ErrOTPExpired`. -/
def ErrOTPExpired : AppError :=
  { Code := "OTP_EXPIRED", Message := "OTP has expired", HTTPCode := 401 }

/-- Sentinel `ErrRateLimitExceeded`. -/
def ErrRateLimitExceeded : AppError :=
  { Code := "RATE_LIMIT_EXCEEDED", Message := "Too many requests. Please try again later",
    HTTPCode := 429 }

/-- Sentinel `ErrUserNotFound`. -/
def ErrUserNotFound : AppError :=
  { Code := "USER_NOT_FOUND", Message := "User not found", HTTPCode := 404 }

/-- Sentinel `ErrInvalidPhoneNumber`. -/
def ErrInvalidPhoneNumber : AppError :=
  { Code := "INVALID_PHONE_NUMBER", Message := "Invalid phone number format", HTTPCode := 400 }

/-- Sentinel `ErrUnauthorized`. -/
def ErrUnauthorized : AppError :=
  { Code := "UNAUTHORIZED", Message := "Authentication required", HTTPCode := 401 }

/-- Sentinel `ErrInvalidToken`. -/
def ErrInvalidToken : AppError :=
  { Code := "INVALID_TOKEN", Message := "Invalid or expired token", HTTPCode := 401 }

/-- Sentinel `ErrInternalServer`. -/
def ErrInternalServer : AppError :=
  { Code := "INTERNAL_SERVER_ERROR", Message := "Internal server error", HTTPCode := 500 }

/-- Sentinel `ErrInvalidRequest`. -/
def ErrInvalidRequest : AppError :=
  { Code := "INVALID_REQUEST", Message := "Invalid request format", HTTPCode := 400 }

/-- Sentinel `ErrValidationFailed`. -/
def ErrValidationFailed : AppError :=
  { Code := "VALIDATION_FAILED", Message := "Validation failed", HTTPCode := 400 }

/-- The ten sentinels declared in `errors.go`, in the order of the source. -/
def sentinels : List AppError :=
  [ErrInvalidPhoneNumber, ErrInvalidOTP, ErrOTPExpired, ErrRateLimitExceeded, ErrUserNotFound,
   ErrUnauthorized, ErrInvalidToken, ErrInternalServer, ErrInvalidRequest, ErrValidationFailed]

/-- The messages of the sentinels: the fixed catalogue of user-visible messages. -/
def catalogueMessages : List String :=
  sentinels.map AppError.Message

/-- Function `NewAppError`. -/
def NewAppError (code message : String) (httpCode : Nat) : AppError :=
  { Code := code, Message := message, HTTPCode := httpCode }

/-- Method `AppError.WithDetails`. -/
def AppError.WithDetails (e : AppError) (details : String) : AppError :=
  { Code := e.Code, Message := e.Message, HTTPCode := e.HTTPCode, Details := details }

/-- Function `IsAppError`: the type assertion `err.(*AppError)`; `none` stands for `(nil, false)`. -/
def IsAppError (err : GoError) : Option AppError :=
  match err with
  | .app appErr => some appErr
  | .plain _ => none

/-- Function `HandleError`, on a non-nil error. -/
def HandleError (err : GoError) : AppError :=
  match IsAppError err with
  | some appErr => appErr
  | none => ErrInternalServer.WithDetails err.Error

/-! ## internal/models, internal/config -/

/-- Row identifiers (`uuid.UUID`), read as numbers so that they can be ordered. -/
abbrev UUID := Nat

/-- Instants (`time.Time`), in nanoseconds. -/
abbrev Time := Int

/-- Durations (`time.Duration`), in nanoseconds. -/
abbrev Duration := Int

/-- Row of table `otps` (`models.OTP`). -/
structure OTP where
  ID : UUID
  PhoneNumber : String
  Code : String
  CreatedAt : Time
  ExpiresAt : Time
  IsUsed : Bool
  deriving DecidableEq, Repr

/-- Method `OTP.IsExpired`: `time.Now().After(o.ExpiresAt)`, with the clock reading `now`. -/
def OTP.IsExpired (now : Time) (o : OTP) : Bool :=
  decide (o.ExpiresAt < now)

/-- Row of table `otp_attempts` (`models.OTPAttempt`). -/
structure OTPAttempt where
  ID : UUID
  PhoneNumber : String
  AttemptTime : Time
  deriving DecidableEq, Repr

/-- Row of table `users` (`models.User`). -/
structure User where
  ID : UUID
  PhoneNumber : String
  CreatedAt : Time
  UpdatedAt : Time
  deriving DecidableEq, Repr

/-- The OTP section of the configuration (`config.OTPConfig`). -/
structure OTPConfig where
  ExpiryTime : Duration
  MaxAttempts : Int
  RateWindow : Duration
  deriving DecidableEq, Repr

/-- One minute, in nanoseconds (`time.Minute`). -/
def minute : Duration := 60000000000

/-- The OTP values set by `LoadConfig`. -/
def LoadConfig : OTPConfig :=
  { ExpiryTime := 2 * minute, MaxAttempts := 3, RateWindow := 10 * minute }

/-! ## The credential store -/

/-- The three tables of the database, rows in insertion order. -/
structure Store where
  otps : List OTP
  otp_attempts : List OTPAttempt
  users : List User
  deriving DecidableEq, Repr

/-- What one `INSERT` round trip reads from outside: a driver failure if there is one, the
identifier generated for the new row (`gen_random_uuid()`, `uuid.New()`) and the clock reading
used for the automatic timestamps. -/
structure InsertEnv where
  fault : Option String
  id : UUID
  now : Time
  deriving DecidableEq, Repr

/-- The gorm finisher `First`: of the selected rows, the one with the least primary key
(`ORDER BY id LIMIT 1`); among rows of equal key the earliest inserted. -/
def gormFirst {α : Type} (key : α → UUID) : List α → Option α
  | [] => none
  | r :: rs =>
    match gormFirst key rs with
    | none => some r
    | some m => if key m < key r then some m else some r

/-- The text PostgreSQL reports for a violated unique index or primary key. -/
def duplicateKey (index : String) : String :=
  "ERROR: duplicate key value violates unique constraint " ++ index ++ " (SQLSTATE 23505)"

/-! ## internal/repository/otp_repository.go -/

/-- Method `otpRepository.Create`: insert the row with a generated identifier and creation time;
the primary key must be new. -/
def otpRepository.Create (env : InsertEnv) (s : Store) (otp : OTP) : Except GoError Store :=
  match env.fault with
  | some text => .error (.plain ("failed to create OTP: " ++ text))
  | none =>
    if s.otps.any (fun o => o.ID == env.id) then
      .error (.plain ("failed to create OTP: " ++ duplicateKey "otps_pkey"))
    else
      .ok { s with otps := s.otps ++ [{ otp with ID := env.id, CreatedAt := env.now }] }

/-- The rows selected by `phone_number = ? AND code = ? AND is_used = false`. -/
def unusedMatches (s : Store) (phoneNumber code : String) : List OTP :=
  s.otps.filter (fun o => o.PhoneNumber == phoneNumber && o.Code == code && o.IsUsed == false)

/-- The row the query of `GetValidOTP` delivers: the selected rows finished with `First`. -/
def lookupUnused (s : Store) (phoneNumber code : String) : Option OTP :=
  gormFirst OTP.ID (unusedMatches s phoneNumber code)

/-- Method `otpRepository.GetValidOTP`; `now` is the clock reading of `IsExpired`. -/
def otpRepository.GetValidOTP (fault : Option String) (now : Time) (s : Store)
    (phoneNumber code : String) : Except GoError OTP :=
  match fault with
  | some text => .error (.plain ("failed to get OTP: " ++ text))
  | none =>
    match lookupUnused s phoneNumber code with
    | none => .error (.app ErrInvalidOTP)
    | some otp => if otp.IsExpired now then .error (.app ErrOTPExpired) else .ok otp

/-- The number of rows an `UPDATE ... WHERE id = ?` on table `otps` reports (`RowsAffected`):
PostgreSQL counts every row the condition selects. -/
def rowsWithID (s : Store) (id : UUID) : Nat :=
  (s.otps.filter (fun o => o.ID == id)).length

/-- Method `otpRepository.MarkAsUsed`: `UPDATE otps SET is_used = true WHERE id = ?`. -/
def otpRepository.MarkAsUsed (fault : Option String) (s : Store) (id : UUID) :
    Except GoError Store :=
  match fault with
  | some text => .error (.plain ("failed to mark OTP as used: " ++ text))
  | none =>
    if rowsWithID s id = 0 then .error (.app ErrInvalidOTP)
    else .ok { s with otps := s.otps.map (fun o => if o.ID == id then { o with IsUsed := true }
                                                   else o) }

/-- Method `otpRepository.DeleteExpired`: `DELETE FROM otps WHERE expires_at < now`. -/
def otpRepository.DeleteExpired (fault : Option String) (now : Time) (s : Store) :
    Except GoError Store :=
  match fault with
  | some text => .error (.plain ("failed to cleanup expired OTPs: " ++ text))
  | none => .ok { s with otps := s.otps.filter (fun o => !decide (o.ExpiresAt < now)) }

/-- Method `otpAttemptRepository.Create`: insert the row with a generated identifier and attempt
time; the primary key must be new. -/
def otpAttemptRepository.Create (env : InsertEnv) (s : Store) (attempt : OTPAttempt) :
    Except GoError Store :=
  match env.fault with
  | some text => .error (.plain ("failed to create OTP attempt: " ++ text))
  | none =>
    if s.otp_attempts.any (fun a => a.ID == env.id) then
      .error (.plain ("failed to create OTP attempt: " ++ duplicateKey "otp_attempts_pkey"))
    else
      .ok { s with otp_attempts :=
              s.otp_attempts ++ [{ attempt with ID := env.id, AttemptTime := env.now }] }

/-- The rows selected by `phone_number = ? AND attempt_time > ?`. -/
def recentAttempts (s : Store) (phoneNumber : String) (since : Time) : List OTPAttempt :=
  s.otp_attempts.filter (fun a => a.PhoneNumber == phoneNumber && decide (since < a.AttemptTime))

/-- Method `otpAttemptRepository.CountRecentAttempts` (an `int64` count). -/
def otpAttemptRepository.CountRecentAttempts (fault : Option String) (s : Store)
    (phoneNumber : String) (since : Time) : Except GoError Int :=
  match fault with
  | some text => .error (.plain ("failed to count OTP attempts: " ++ text))
  | none => .ok ((recentAttempts s phoneNumber since).length : Int)

/-- Method `otpAttemptRepository.DeleteOldAttempts`:
`DELETE FROM otp_attempts WHERE attempt_time < before`. -/
def otpAttemptRepository.DeleteOldAttempts (fault : Option String) (before : Time) (s : Store) :
    Except GoError Store :=
  match fault with
  | some text => .error (.plain ("failed to cleanup old OTP attempts: " ++ text))
  | none =>
    .ok { s with otp_attempts := s.otp_attempts.filter (fun a => !decide (a.AttemptTime < before)) }

/-! ## internal/repository/user_repository.go -/

/-- Method `userRepository.Create`: insert the row with the identifier set by `BeforeCreate` and
the automatic timestamps; the primary key and the unique index on `phone_number` must both
admit it.  The inserted row is returned, as the Go code reads it back through its pointer. -/
def userRepository.Create (env : InsertEnv) (s : Store) (user : User) :
    Except GoError (Store × User) :=
  match env.fault with
  | some text => .error (.plain ("failed to create user: " ++ text))
  | none =>
    if s.users.any (fun u => u.ID == env.id) then
      .error (.plain ("failed to create user: " ++ duplicateKey "users_pkey"))
    else if s.users.any (fun u => u.PhoneNumber == user.PhoneNumber) then
      .error (.plain ("failed to create user: " ++ duplicateKey "idx_users_phone_number"))
    else
      let row : User := { user with ID := env.id, CreatedAt := env.now, UpdatedAt := env.now }
      .ok ({ s with users := s.users ++ [row] }, row)

/-- Method `userRepository.GetByPhoneNumber`: `WHERE phone_number = ?` with `First`. -/
def userRepository.GetByPhoneNumber (fault : Option String) (s : Store) (phoneNumber : String) :
    Except GoError User :=
  match fault with
  | some text => .error (.plain ("failed to get user by phone: " ++ text))
  | none =>
    match gormFirst User.ID (s.users.filter (fun u => u.PhoneNumber == phoneNumber)) with
    | none => .error (.app ErrUserNotFound)
    | some user => .ok user

/-! ## pkg/utils/otp.go -/

/-- The verb `%06d` of `fmt.Sprintf` on a non-negative number: its decimal digits, padded on the
left with zeros to a width of six. -/
def sprintf06d (v : Nat) : String :=
  let digits := Nat.toDigits 10 v
  ⟨List.replicate (6 - digits.length) '0' ++ digits⟩

/-- Function `GenerateOTP`; `draw` is what `rand.Int(rand.Reader, 900000)` delivers, a number
below `999999 - 100000 + 1` or a failure of the random source. -/
def GenerateOTP (draw : Except String Nat) : Except GoError String :=
  match draw with
  | .error text => .error (.plain ("failed to generate OTP: " ++ text))
  | .ok n => .ok (sprintf06d (n + 100000))

/-- The constant `charset` of `GenerateRandomString`. -/
def charset : String := "abcdefghijklmnopqrstuvwxyzABCDEFGHIJKLMNOPQRSTUVWXYZ0123456789"

/-- The loop of `GenerateRandomString` from index `i` on, `count` bytes to go: `draw i` is what
the `i`-th call of `rand.Int(rand.Reader, 62)` delivers (`none` when the random source fails
and the ignored error leaves a nil number behind), and `charset[n]` must be inside the
constant.  `none` stands for a run-time panic. -/
def fillBytes (draw : Nat → Option Nat) : Nat → Nat → Option (List Char)
  | _, 0 => some []
  | i, count + 1 =>
    match draw i with
    | none => none
    | some n =>
      match charset.data[n]? with
      | none => none
      | some c => (fillBytes draw (i + 1) count).map (fun rest => c :: rest)

/-- Function `GenerateRandomString`; a negative length makes `make` panic. -/
def GenerateRandomString (draw : Nat → Option Nat) (length : Int) : Option String :=
  if length < 0 then none
  else (fillBytes draw 0 length.toNat).map (fun result => String.mk result)

/-- The number a string of characters `0`-`9` denotes in base ten (most significant digit
first). -/
def decimalValue (digits : List Char) : Nat :=
  digits.foldl (fun acc c => 10 * acc + (c.toNat - 48)) 0

/-! ## internal/services/otp_service.go -/

/-- What one `SendOTP` call reads from outside, in the order the code reads it. -/
structure SendEnv where
  /-- `time.Now()` in `checkRateLimit`. -/
  checkNow : Time
  /-- A driver failure of the count query. -/
  countFault : Option String
  /-- The result of the random draw. -/
  draw : Except String Nat
  /-- `time.Now()` when `expiresAt` is computed. -/
  expiryNow : Time
  /-- The insert into `otps`. -/
  otpInsert : InsertEnv
  /-- The insert into `otp_attempts`. -/
  attemptInsert : InsertEnv

/-- Every collaborator of the call works: no driver failure and a successful random draw. -/
def SendEnv.healthy (e : SendEnv) : Prop :=
  e.countFault = none ∧ e.otpInsert.fault = none ∧ e.attemptInsert.fault = none
    ∧ e.draw.toBool = true

instance (e : SendEnv) : Decidable e.healthy := by
  unfold SendEnv.healthy
  infer_instance

/-- The clock does not run backwards during the call. -/
def SendEnv.clockOrdered (e : SendEnv) : Prop :=
  e.checkNow ≤ e.expiryNow ∧ e.expiryNow ≤ e.otpInsert.now ∧ e.otpInsert.now ≤ e.attemptInsert.now

instance (e : SendEnv) : Decidable e.clockOrdered := by
  unfold SendEnv.clockOrdered
  infer_instance

/-- Method `OTPService.checkRateLimit`; `none` is Go's `nil`. -/
def OTPService.checkRateLimit (cfg : OTPConfig) (now : Time) (fault : Option String) (s : Store)
    (phoneNumber : String) : Option GoError :=
  let cutoffTime := now + -cfg.RateWindow
  match otpAttemptRepository.CountRecentAttempts fault s phoneNumber cutoffTime with
  | .error err => some err
  | .ok count => if count ≥ cfg.MaxAttempts then some (.app ErrRateLimitExceeded) else none

/-- Method `OTPService.SendOTP`: the store after the call and the returned error (`none` is
`nil`).  The log calls have no effect on either and are left out. -/
def OTPService.SendOTP (cfg : OTPConfig) (env : SendEnv) (s : Store) (phoneNumber : String) :
    Store × Option GoError :=
  let validationErrors := ValidatePhoneNumber phoneNumber
  if validationErrors.HasErrors then
    (s, some (.plain ("validation failed: " ++ validationErrors.Error)))
  else
    match OTPService.checkRateLimit cfg env.checkNow env.countFault s phoneNumber with
    | some err => (s, some err)
    | none =>
      match GenerateOTP env.draw with
      | .error err => (s, some (.plain ("failed to generate OTP: " ++ err.Error)))
      | .ok otpCode =>
        let expiresAt := env.expiryNow + cfg.ExpiryTime
        let otp : OTP :=
          { ID := 0, PhoneNumber := phoneNumber, Code := otpCode, CreatedAt := 0,
            ExpiresAt := expiresAt, IsUsed := false }
        match otpRepository.Create env.otpInsert s otp with
        | .error err => (s, some err)
        | .ok s1 =>
          let attempt : OTPAttempt := { ID := 0, PhoneNumber := phoneNumber, AttemptTime := 0 }
          match otpAttemptRepository.Create env.attemptInsert s1 attempt with
          | .error _ => (s1, none)
          | .ok s2 => (s2, none)

/-- Consecutive `SendOTP` calls for one phone number, one environment per call: the store after
the last call and the list of the returned errors. -/
def OTPService.sendSeq (cfg : OTPConfig) (phoneNumber : String) :
    List SendEnv → Store → Store × List (Option GoError)
  | [], s => (s, [])
  | e :: es, s =>
    let r := OTPService.SendOTP cfg e s phoneNumber
    let rest := OTPService.sendSeq cfg phoneNumber es r.1
    (rest.1, r.2 :: rest.2)

/-- What one `VerifyOTP` call reads from outside, in the order the code reads it. -/
structure VerifyEnv where
  /-- A driver failure of the OTP lookup. -/
  findFault : Option String
  /-- `time.Now()` in `IsExpired`. -/
  now : Time
  /-- A driver failure of the mark-used update. -/
  markFault : Option String
  /-- A driver failure of the user lookup. -/
  userFindFault : Option String
  /-- The insert into `users`. -/
  userInsert : InsertEnv

/-- What other requests commit to the store between the storage round trips of one `VerifyOTP`
call: after the OTP lookup, after the mark-used update, after the user lookup. -/
structure Interleaving where
  afterLookup : Store → Store
  afterMark : Store → Store
  afterUserLookup : Store → Store

/-- No other request is active. -/
def Interleaving.none : Interleaving :=
  { afterLookup := id, afterMark := id, afterUserLookup := id }

/-- Method `OTPService.VerifyOTP` running among other requests: the store after the call and the
returned user or error.  The log calls are left out; `digitTable` is the table of
`unicode.IsDigit` beyond Latin-1, which the validation of the code consults. -/
def OTPService.VerifyOTPAmong (digitTable : Char → Bool) (il : Interleaving) (env : VerifyEnv)
    (s : Store)
    (phoneNumber code : String) : Store × Except GoError User :=
  if (ValidatePhoneNumber phoneNumber).HasErrors then
    (s, .error (.plain ("validation failed: " ++ (ValidatePhoneNumber phoneNumber).Error)))
  else if (ValidateOTPCode digitTable code).HasErrors then
    (s, .error (.plain ("validation failed: " ++ (ValidateOTPCode digitTable code).Error)))
  else
    match otpRepository.GetValidOTP env.findFault env.now s phoneNumber code with
    | .error err => (s, .error err)
    | .ok otp =>
      let s1 := il.afterLookup s
      match otpRepository.MarkAsUsed env.markFault s1 otp.ID with
      | .error err => (s1, .error err)
      | .ok s2 =>
        let s3 := il.afterMark s2
        match userRepository.GetByPhoneNumber env.userFindFault s3 phoneNumber with
        | .error err =>
          if err = .app ErrUserNotFound then
            let s4 := il.afterUserLookup s3
            let newUser : User :=
              { ID := 0, PhoneNumber := phoneNumber, CreatedAt := 0, UpdatedAt := 0 }
            match userRepository.Create env.userInsert s4 newUser with
            | .error err => (s4, .error err)
            | .ok (s5, created) => (s5, .ok created)
          else (s3, .error err)
        | .ok user => (s3, .ok user)

/-- Method `OTPService.VerifyOTP`, one request at a time. -/
def OTPService.VerifyOTP (digitTable : Char → Bool) (env : VerifyEnv) (s : Store)
    (phoneNumber code : String) : Store × Except GoError User :=
  OTPService.VerifyOTPAmong digitTable Interleaving.none env s phoneNumber code

/-- Method `OTPService.CleanupExpiredOTPs`. -/
def OTPService.CleanupExpiredOTPs (fault : Option String) (now : Time) (s : Store) :
    Except GoError Store :=
  otpRepository.DeleteExpired fault now s

/-! ## Sequences of calls on the OTP store -/

/-- One call on the OTP store: `SendOTP`, `VerifyOTP`, the cleanup of expired records
(`CleanupExpiredOTPs`) and the cleanup of old attempts (`DeleteOldAttempts`). -/
inductive Operation where
  | send (env : SendEnv) (phoneNumber : String)
  | verify (env : VerifyEnv) (phoneNumber code : String)
  | cleanupOTPs (fault : Option String) (now : Time)
  | cleanupAttempts (fault : Option String) (before : Time)

/-- The store after one call; a cleanup that fails leaves the store as it was. -/
def Operation.run (digitTable : Char → Bool) (cfg : OTPConfig) : Operation → Store → Store
  | .send env phoneNumber, s => (OTPService.SendOTP cfg env s phoneNumber).1
  | .verify env phoneNumber code, s =>
    (OTPService.VerifyOTP digitTable env s phoneNumber code).1
  | .cleanupOTPs fault now, s =>
    match OTPService.CleanupExpiredOTPs fault now s with
    | .ok s1 => s1
    | .error _ => s
  | .cleanupAttempts fault before, s =>
    match otpAttemptRepository.DeleteOldAttempts fault before s with
    | .ok s1 => s1
    | .error _ => s

/-- The store after a sequence of calls, one after the other. -/
def runAll (digitTable : Char → Bool) (cfg : OTPConfig) : List Operation → Store → Store
  | [], s => s
  | op :: ops, s => runAll digitTable cfg ops (op.run digitTable cfg s)

/-- The clock never runs backwards over a sequence of calls: `last` is the latest reading so
far, and every reading of every call is at least the one before it. -/
def clockChain : Time → List Operation → Prop
  | _, [] => True
  | last, .send env _ :: ops =>
    last ≤ env.checkNow ∧ env.clockOrdered ∧ clockChain env.attemptInsert.now ops
  | last, .verify env _ _ :: ops =>
    last ≤ env.now ∧ env.now ≤ env.userInsert.now ∧ clockChain env.userInsert.now ops
  | last, .cleanupOTPs _ now :: ops => last ≤ now ∧ clockChain now ops
  | last, .cleanupAttempts _ _ :: ops => clockChain last ops

/-- The attempt rows of a phone number with attempt time in the window `(t - window, t]`. -/
def attemptsInWindow (s : Store) (phoneNumber : String) (window : Duration) (t : Time) :
    List OTPAttempt :=
  s.otp_attempts.filter
    (fun a => a.PhoneNumber == phoneNumber && decide (t - window < a.AttemptTime)
      && decide (a.AttemptTime ≤ t))

/-- The invariant behind the sliding window: no attempt lies after the latest clock reading,
and no window holds more than `MaxAttempts` attempts of one phone number. -/
def windowInvariant (cfg : OTPConfig) (s : Store) (last : Time) : Prop :=
  (∀ a ∈ s.otp_attempts, a.AttemptTime ≤ last) ∧
  ∀ phone t, ((attemptsInWindow s phone cfg.RateWindow t).length : Int) ≤ cfg.MaxAttempts

/-! ## Listing users: user_repository.go, dto.go, user_service.go -/

/-- The descending order of `ORDER BY created_at DESC`. -/
def newerFirst (a b : User) : Prop := b.CreatedAt ≤ a.CreatedAt

instance : DecidableRel newerFirst := fun a b => by
  unfold newerFirst
  infer_instance

/-- Method `userRepository.GetUsers`: the rows selected by the search (all rows when it is
empty), counted, then ordered by creation time descending and cut to the page.  `ilike` is the
pattern match `ILIKE` of the storage engine; `countFault` and `findFault` are driver failures of
the two queries.  The order among rows of equal creation time is left to the engine; here they
keep their insertion order. -/
def userRepository.GetUsers (ilike : String → String → Bool) (countFault findFault : Option String)
    (s : Store) (page limit : Int) (search : String) : Except GoError (List User × Int) :=
  let selected :=
    if search ≠ "" then s.users.filter (fun u => ilike u.PhoneNumber ("%" ++ search ++ "%"))
    else s.users
  match countFault with
  | some text => .error (.plain ("failed to count users: " ++ text))
  | none =>
    let total : Int := selected.length
    let offset := (page - 1) * limit
    match findFault with
    | some text => .error (.plain ("failed to get users: " ++ text))
    | none =>
      .ok (((selected.insertionSort newerFirst).drop offset.toNat).take limit.toNat, total)

/-- The listing method of the interface `UserRepository`, as the service sees it. -/
abbrev UsersQuery := Int → Int → String → Except GoError (List User × Int)

/-- Entry of a user list (`models.UserResponse`). -/
structure UserResponse where
  ID : UUID
  PhoneNumber : String
  CreatedAt : String
  deriving DecidableEq, Repr

/-- A page of users (`models.UsersListResponse`). -/
structure UsersListResponse where
  Users : List UserResponse
  Total : Int
  Page : Int
  Limit : Int
  TotalPages : Int
  deriving DecidableEq, Repr

/-- Rounding of a rational to the nearest integer, halves to the even neighbour. -/
def roundHalfEven (q : ℚ) : Int :=
  if q - ⌊q⌋ < 1 / 2 then ⌊q⌋
  else if 1 / 2 < q - ⌊q⌋ then ⌊q⌋ + 1
  else if ⌊q⌋ % 2 = 0 then ⌊q⌋ else ⌊q⌋ + 1

/-- The `float64` nearest to a positive real `x` (IEEE 754 binary64, round to nearest, ties to
even): with `2 ^ e ≤ x < 2 ^ (e + 1)` the neighbours of `x` are the multiples of `2 ^ (e - 52)`.
Overflow and subnormal numbers are outside the magnitudes met here (between `2 ^ (-7)` and
`2 ^ 63`) and are not modelled. -/
def roundFloat64Pos (x : ℚ) : ℚ :=
  roundHalfEven (x / 2 ^ (Int.log 2 x - 52)) * 2 ^ (Int.log 2 x - 52)

/-- The `float64` nearest to a real number. -/
def roundFloat64 (x : ℚ) : ℚ :=
  if x = 0 then 0 else if x < 0 then -roundFloat64Pos (-x) else roundFloat64Pos x

/-- The conversion `float64(n)` of an integer. -/
def float64OfInt (n : Int) : ℚ :=
  roundFloat64 n

/-- The `float64` division `a / b` for `b ≠ 0`: the exact quotient, rounded. -/
def float64Div (a b : ℚ) : ℚ :=
  roundFloat64 (a / b)

/-- Go `math.Ceil` on a finite `float64`, which is exact. -/
def mathCeil (x : ℚ) : ℚ :=
  (⌈x⌉ : Int)

/-- The conversion `int(x)` of a finite `float64` inside the range of `int`: the fraction is
discarded. -/
def intOfFloat64 (x : ℚ) : Int :=
  if 0 ≤ x then ⌊x⌋ else ⌈x⌉

/-- The expression `int(math.Ceil(float64(total) / float64(limit)))` of `GetUsers`. -/
def totalPagesOf (total limit : Int) : Int :=
  intOfFloat64 (mathCeil (float64Div (float64OfInt total) (float64OfInt limit)))

/-- Method `UserService.GetUsers`, with the list of the calls it made to the repository (page,
limit, search) next to its result.  `formatRFC3339` stands for `Time.Format(time.RFC3339)`. -/
def UserService.GetUsers (caseTable : Char → Char) (formatRFC3339 : Time → String)
    (repo : UsersQuery) (page limit : Int) (search : String) :
    List (Int × Int × String) × Except GoError UsersListResponse :=
  if (ValidatePaginationParams page limit).HasErrors then
    ([], .error (.plain ("validation failed: " ++ (ValidatePaginationParams page limit).Error)))
  else if search ≠ "" && !IsValidSearchQuery caseTable search then
    ([], .error (.plain "invalid search query"))
  else
    match repo page limit search with
    | .error err => ([(page, limit, search)], .error err)
    | .ok (users, total) =>
      let userResponses : List UserResponse :=
        users.map (fun user =>
          { ID := user.ID, PhoneNumber := user.PhoneNumber,
            CreatedAt := formatRFC3339 user.CreatedAt })
      let totalPages := totalPagesOf total limit
      ([(page, limit, search)],
        .ok { Users := userResponses, Total := total, Page := page, Limit := limit,
              TotalPages := totalPages })

/-- What `GetUserStats` derives from the clock: `now`, the local midnight `today`, seven days
before it (`thisWeek`), one month before it (`thisMonth`), and `now` in RFC 3339. -/
structure StatsEnv where
  now : Time
  today : Time
  thisWeek : Time
  thisMonth : Time
  timestamp : String
  deriving DecidableEq, Repr

/-- The map returned by `GetUserStats`, one field per key. -/
structure UserStats where
  total_users : Int
  users_today : Int
  users_this_week : Int
  users_this_month : Int
  timestamp : String
  deriving DecidableEq, Repr

/-- Method `UserService.GetUserStats`. -/
def UserService.GetUserStats (repo : UsersQuery) (env : StatsEnv) : Except GoError UserStats :=
  match repo 1 1000000 "" with
  | .error err => .error err
  | .ok (users, _) =>
    .ok { total_users := users.length,
          users_today := (users.filter (fun user => decide (env.today < user.CreatedAt))).length,
          users_this_week :=
            (users.filter (fun user => decide (env.thisWeek < user.CreatedAt))).length,
          users_this_month :=
            (users.filter (fun user => decide (env.thisMonth < user.CreatedAt))).length,
          timestamp := env.timestamp }

/-! ## Sample data -/

/-- A well-formed phone number, as in the tests of the repository. -/
def demoPhone : String := "+1234567890"

/-- A well-formed code. -/
def demoCode : String := "123456"

/-- A digit table for the evaluations below: their codes stay within Latin-1, where
`unicode.IsDigit` does not consult its table, so that every table gives the same outcome
(`validateOTPCode_latin1`, `verifyOTPAmong_latin1`). -/
def noFurtherDigits : Char → Bool := fun _ => false

/-- A `SendOTP` environment without failures: identifier `k` for both inserts, every clock
reading `t`, random draw `23456`. -/
def demoSend (k : UUID) (t : Time) : SendEnv :=
  { checkNow := t, countFault := none, draw := .ok 23456, expiryNow := t,
    otpInsert := { fault := none, id := k, now := t },
    attemptInsert := { fault := none, id := k, now := t } }

/-- A `VerifyOTP` environment without failures: clock reading `t`, identifier `7` for a new
user. -/
def demoVerify (t : Time) : VerifyEnv :=
  { findFault := none, now := t, markFault := none, userFindFault := none,
    userInsert := { fault := none, id := 7, now := t } }

/-- A store whose only row is an attempt of another phone number. -/
def seedStore : Store :=
  { otps := [], otp_attempts := [⟨100, "+19998887777", 0⟩], users := [] }

/-- A store with three attempts of `demoPhone`, at minutes 1, 2 and 3. -/
def blockedStore : Store :=
  { otps := [],
    otp_attempts := [⟨1, demoPhone, minute⟩, ⟨2, demoPhone, 2 * minute⟩, ⟨3, demoPhone, 3 * minute⟩],
    users := [] }

/-- One unused code sent at time 0 with the two minute expiry. -/
def singleStore : Store :=
  { otps := [⟨1, demoPhone, demoCode, 0, 2 * minute, false⟩], otp_attempts := [], users := [] }

/-- The same code sent twice: at time 0 (expiring at minute 2) and at minute 4 (expiring at
minute 6). -/
def resentStore : Store :=
  { otps := [⟨1, demoPhone, demoCode, 0, 2 * minute, false⟩,
             ⟨2, demoPhone, demoCode, 4 * minute, 6 * minute, false⟩],
    otp_attempts := [], users := [⟨7, demoPhone, 0, 0⟩] }

/-- The same code sent twice within the same minute, both rows unused. -/
def twinStore : Store :=
  { otps := [⟨1, demoPhone, demoCode, 0, 2 * minute, false⟩,
             ⟨2, demoPhone, demoCode, 1, 2 * minute + 1, false⟩],
    otp_attempts := [], users := [⟨7, demoPhone, 0, 0⟩] }

/-- One code that has already been used. -/
def usedStore : Store :=
  { otps := [⟨1, demoPhone, demoCode, 0, 2 * minute, true⟩], otp_attempts := [], users := [] }

/-- A second request that registers `demoPhone` between the user lookup and the user creation of
the first. -/
def racingRegistration : Interleaving :=
  { afterLookup := id, afterMark := id,
    afterUserLookup := fun s => { s with users := s.users ++ [⟨9, demoPhone, minute, minute⟩] } }

/-- Three Arabic-Indic digits (U+0660), six bytes of UTF-8. -/
def arabicIndicZeros : String :=
  ⟨[Char.ofNat 0x660, Char.ofNat 0x660, Char.ofNat 0x660]⟩

/-- The store after the first `SendOTP` for `demoPhone` on `seedStore`, at time 0. -/
def sentStore : Store :=
  { otps := [⟨1, demoPhone, "123456", 0, 2 * minute, false⟩],
    otp_attempts := [⟨100, "+19998887777", 0⟩, ⟨1, demoPhone, 0⟩], users := [] }

/-- The environment of `demoSend 1 0` with a driver failure on the insert into
`otp_attempts`. -/
def attemptDown : SendEnv :=
  { checkNow := 0, countFault := none, draw := .ok 23456, expiryNow := 0,
    otpInsert := { fault := none, id := 1, now := 0 },
    attemptInsert := { fault := some "connection reset", id := 1, now := 0 } }

/-- The store after a send on `seedStore` whose attempt row was not written. -/
def unloggedStore : Store :=
  { otps := [⟨1, demoPhone, "123456", 0, 2 * minute, false⟩],
    otp_attempts := [⟨100, "+19998887777", 0⟩], users := [] }

/-- The phone number of `demoPhone` behind a leading blank. -/
def paddedPhone : String := " +1234567890"

/-- The store after `SendOTP` for `paddedPhone` on `seedStore` at time 0. -/
def paddedStore : Store :=
  { otps := [⟨1, paddedPhone, "123456", 0, 2 * minute, false⟩],
    otp_attempts := [⟨100, "+19998887777", 0⟩, ⟨1, paddedPhone, 0⟩], users := [] }

/-- A domain error built with `NewAppError`. -/
def teapot : AppError := NewAppError "TEAPOT" "I am a teapot" 418

/-- A repository that reports no rows and a fixed total. -/
def totalOnly (total : Int) : UsersQuery :=
  fun _ _ _ => .ok ([], total)

/-- A store with `n` users of different identifiers and phone numbers, all created at time 1. -/
def crowdOf (n : Nat) : Store :=
  { otps := [], otp_attempts := [],
    users := (List.range n).map
      (fun i => { ID := i, PhoneNumber := "+1" ++ toString (2000000000 + i), CreatedAt := 1,
                  UpdatedAt := 1 }) }

/-- A store with 1000001 users. -/
def crowdStore : Store := crowdOf 1000001

/-- The store with no rows. -/
def emptyStore : Store := { otps := [], otp_attempts := [], users := [] }

/-- Four sends one minute apart, a verification, and the two cleanups. -/
def demoOps : List Operation :=
  [.send (demoSend 1 0) demoPhone, .send (demoSend 2 minute) demoPhone,
   .send (demoSend 3 (2 * minute)) demoPhone, .send (demoSend 4 (3 * minute)) demoPhone,
   .verify (demoVerify (4 * minute)) demoPhone demoCode,
   .cleanupOTPs none (5 * minute), .cleanupAttempts none minute]

/-- A `VerifyOTP` environment at minute 1 in which the driver fails on the user lookup. -/
def userLookupDown : VerifyEnv :=
  { findFault := none, now := minute, markFault := none,
    userFindFault := some "connection reset",
    userInsert := { fault := none, id := 7, now := minute } }

/-- The store `singleStore` with its code marked used. -/
def spentStore : Store :=
  { otps := [⟨1, demoPhone, demoCode, 0, 2 * minute, true⟩], otp_attempts := [], users := [] }

/-- Clock readings of a statistics call: midnight at time 0. -/
def statsEnv : StatsEnv :=
  { now := 10, today := 0, thisWeek := -7, thisMonth := -30, timestamp := "" }

/-! ## Lemmas on strings and validation -/

theorem utf8Size_of_toNat_le (c : Char) (h : c.toNat ≤ 127) : c.utf8Size = 1 := by
  have h1 : c.val ≤ 0x7F := by
    rw [UInt32.le_def]
    exact h
  simp [Char.utf8Size, h1]

theorem trimLeft_subset (s : List Char) : ∀ c ∈ trimLeft s, c ∈ s := by
  intro c hc
  exact (List.dropWhile_sublist unicodeIsSpace).subset hc

theorem trimSpaceChars_subset (s : List Char) : ∀ c ∈ trimSpaceChars s, c ∈ s := by
  intro c hc
  unfold trimSpaceChars at hc
  have h1 := trimLeft_subset _ c (List.mem_reverse.mp hc)
  exact trimLeft_subset _ c (List.mem_reverse.mp h1)

theorem goLen_eq_length (l : List Char) (h : ∀ c ∈ l, c.toNat ≤ 127) : goLen l = l.length := by
  induction l with
  | nil => rfl
  | cons a t ih =>
    simp only [goLen, List.length_cons]
    rw [utf8Size_of_toNat_le a (h a (List.mem_cons_self _ _)),
      ih (fun c hc => h c (List.mem_cons_of_mem _ hc))]
    omega

theorem isAsciiDigit_toNat_le {c : Char} (h : isAsciiDigit c = true) : c.toNat ≤ 127 := by
  simp [isAsciiDigit] at h
  omega

theorem phoneBodyMatch_ascii {l : List Char} (h : phoneBodyMatch l = true) :
    ∀ c ∈ l, c.toNat ≤ 127 := by
  cases l with
  | nil => simp [phoneBodyMatch] at h
  | cons a ds =>
    simp only [phoneBodyMatch, Bool.and_eq_true, decide_eq_true_eq, List.all_eq_true] at h
    intro c hc
    rcases List.mem_cons.mp hc with rfl | hc
    · have := h.1.1.1
      simp [isDigit19] at this
      omega
    · exact isAsciiDigit_toNat_le (h.2 c hc)

theorem phoneRegexMatch_cases (l : List Char) :
    phoneRegexMatch l = phoneBodyMatch l ∨
      ∃ rest, l = '+' :: rest ∧ phoneRegexMatch l = phoneBodyMatch rest := by
  unfold phoneRegexMatch
  split
  · right; exact ⟨_, rfl, rfl⟩
  · left; rfl

theorem phoneRegexMatch_ascii {l : List Char} (h : phoneRegexMatch l = true) :
    ∀ c ∈ l, c.toNat ≤ 127 := by
  rcases phoneRegexMatch_cases l with h1 | ⟨rest, rfl, h1⟩
  · exact phoneBodyMatch_ascii (h1 ▸ h)
  · intro c hc
    rcases List.mem_cons.mp hc with rfl | hc
    · decide
    · exact phoneBodyMatch_ascii (h1 ▸ h) c hc

/-- Within Latin-1 `unicode.IsDigit` does not consult its table. -/
theorem unicodeIsDigit_latin1 (digitTable table2 : Char → Bool) {c : Char} (h : c.toNat ≤ 0xFF) :
    unicodeIsDigit digitTable c = unicodeIsDigit table2 c := by
  unfold unicodeIsDigit
  rw [if_pos h, if_pos h]

theorem unicodeIsDigit_of_ascii (digitTable : Char → Bool) {c : Char} (h : isAsciiDigit c = true) :
    unicodeIsDigit digitTable c = true := by
  have := isAsciiDigit_toNat_le h
  unfold unicodeIsDigit
  rw [if_pos (by omega)]
  exact h

theorem hasErrors_nil {ve : ValidationErrors} (h : ve = []) : ve.HasErrors = false := by
  subst h; rfl

theorem hasErrors_false_iff (ve : ValidationErrors) : ve.HasErrors = false ↔ ve = [] := by
  cases ve <;> simp [ValidationErrors.HasErrors]

/-- On a code within Latin-1 the outcome of `ValidateOTPCode` is the same for every digit
table. -/
theorem validateOTPCode_latin1 (digitTable table2 : Char → Bool) (code : String)
    (h : ∀ ch ∈ code.data, ch.toNat ≤ 0xFF) :
    ValidateOTPCode digitTable code = ValidateOTPCode table2 code := by
  have hany : ∀ l : List Char, (∀ ch ∈ l, ch.toNat ≤ 0xFF) →
      l.any (fun char => !unicodeIsDigit digitTable char)
        = l.any (fun char => !unicodeIsDigit table2 char) := by
    intro l
    induction l with
    | nil => intro _; rfl
    | cons a l ih =>
      intro hl
      rw [List.any_cons, List.any_cons, ih (fun ch hch => hl ch (List.mem_cons_of_mem _ hch)),
        unicodeIsDigit_latin1 digitTable table2 (hl a (List.mem_cons_self _ _))]
  unfold ValidateOTPCode
  dsimp only
  rw [hany _ (fun ch hch => h ch (trimSpaceChars_subset _ ch hch))]

/-! ## Lemmas on the store -/

theorem gormFirst_eq_none {α : Type} (key : α → UUID) (l : List α) :
    gormFirst key l = none ↔ l = [] := by
  cases l with
  | nil => simp [gormFirst]
  | cons a t =>
    simp only [gormFirst]
    cases gormFirst key t with
    | none => simp
    | some m => by_cases h : key m < key a <;> simp [h]

theorem gormFirst_mem {α : Type} (key : α → UUID) :
    ∀ (l : List α) (m : α), gormFirst key l = some m → m ∈ l ∧ ∀ r ∈ l, key m ≤ key r := by
  intro l
  induction l with
  | nil => intro m h; simp [gormFirst] at h
  | cons a t ih =>
    intro m h
    simp only [gormFirst] at h
    cases hg : gormFirst key t with
    | none =>
      rw [hg] at h
      have ht := (gormFirst_eq_none key t).mp hg
      subst ht
      simp only [Option.some.injEq] at h
      subst h
      simp
    | some x =>
      rw [hg] at h
      obtain ⟨hx, hmin⟩ := ih x hg
      by_cases hlt : key x < key a
      · simp only [hlt, if_true, Option.some.injEq] at h
        subst h
        refine ⟨List.mem_cons_of_mem _ hx, ?_⟩
        intro r hr
        rcases List.mem_cons.mp hr with rfl | hr
        · exact Nat.le_of_lt hlt
        · exact hmin r hr
      · simp only [hlt, if_false, Option.some.injEq] at h
        subst h
        refine ⟨List.mem_cons_self _ _, ?_⟩
        intro r hr
        rcases List.mem_cons.mp hr with rfl | hr
        · exact Nat.le_refl _
        · exact Nat.le_trans (Nat.le_of_not_lt hlt) (hmin r hr)

theorem mem_unusedMatches (s : Store) (phone code : String) (o : OTP) :
    o ∈ unusedMatches s phone code ↔
      o ∈ s.otps ∧ o.PhoneNumber = phone ∧ o.Code = code ∧ o.IsUsed = false := by
  simp [unusedMatches, and_assoc]

theorem lookupUnused_none_iff (s : Store) (phone code : String) :
    lookupUnused s phone code = none ↔
      ∀ o ∈ s.otps, ¬(o.PhoneNumber = phone ∧ o.Code = code ∧ o.IsUsed = false) := by
  unfold lookupUnused
  rw [gormFirst_eq_none]
  constructor
  · intro h o ho hm
    have : o ∈ unusedMatches s phone code := (mem_unusedMatches s phone code o).mpr ⟨ho, hm⟩
    rw [h] at this
    exact List.not_mem_nil _ this
  · intro h
    apply List.eq_nil_iff_forall_not_mem.mpr
    intro o ho
    obtain ⟨h1, h2⟩ := (mem_unusedMatches s phone code o).mp ho
    exact h o h1 h2

theorem lookupUnused_some (s : Store) (phone code : String) (o : OTP)
    (h : lookupUnused s phone code = some o) :
    (o ∈ s.otps ∧ o.PhoneNumber = phone ∧ o.Code = code ∧ o.IsUsed = false) ∧
      ∀ r ∈ s.otps, r.PhoneNumber = phone → r.Code = code → r.IsUsed = false → o.ID ≤ r.ID := by
  obtain ⟨h1, h2⟩ := gormFirst_mem OTP.ID _ o h
  refine ⟨(mem_unusedMatches s phone code o).mp h1, ?_⟩
  intro r hr hp hc hu
  exact h2 r ((mem_unusedMatches s phone code r).mpr ⟨hr, hp, hc, hu⟩)

theorem getValidOTP_ok (fault : Option String) (now : Time) (s : Store) (phone code : String)
    (otp : OTP) (h : otpRepository.GetValidOTP fault now s phone code = .ok otp) :
    lookupUnused s phone code = some otp ∧ now ≤ otp.ExpiresAt := by
  unfold otpRepository.GetValidOTP at h
  cases fault with
  | some t => simp at h
  | none =>
    simp only at h
    cases hl : lookupUnused s phone code with
    | none => rw [hl] at h; simp at h
    | some o =>
      rw [hl] at h
      by_cases he : o.IsExpired now = true
      · simp [he] at h
      · simp only [he, Bool.false_eq_true, if_false, Except.ok.injEq] at h
        subst h
        refine ⟨rfl, ?_⟩
        simpa [OTP.IsExpired] using he

theorem markAsUsed_ok (fault : Option String) (s s2 : Store) (id : UUID)
    (h : otpRepository.MarkAsUsed fault s id = .ok s2) :
    s2 = { s with otps := s.otps.map (fun o => if o.ID == id then { o with IsUsed := true }
                                               else o) } := by
  unfold otpRepository.MarkAsUsed at h
  cases fault with
  | some t => simp at h
  | none =>
    by_cases hr : rowsWithID s id = 0
    · simp [hr] at h
    · simp only [hr, if_false, Except.ok.injEq] at h
      exact h.symm

theorem markAsUsed_error (fault : Option String) (s : Store) (id : UUID) (e : GoError)
    (h : otpRepository.MarkAsUsed fault s id = .error e) :
    (∃ t, e = .plain t) ∨ (e = .app ErrInvalidOTP ∧ rowsWithID s id = 0) := by
  unfold otpRepository.MarkAsUsed at h
  cases fault with
  | some t =>
    simp only [Except.error.injEq] at h
    exact Or.inl ⟨_, h.symm⟩
  | none =>
    by_cases hr : rowsWithID s id = 0
    · simp only [hr, if_true, Except.error.injEq] at h
      exact Or.inr ⟨h.symm, hr⟩
    · simp [hr] at h

theorem rowsWithID_pos (s : Store) (o : OTP) (h : o ∈ s.otps) : rowsWithID s o.ID ≠ 0 := by
  unfold rowsWithID
  intro h0
  have := List.length_eq_zero.mp h0
  rw [List.filter_eq_nil_iff] at this
  simpa using this o h

theorem userCreate_error (env : InsertEnv) (s : Store) (u : User) (e : GoError)
    (h : userRepository.Create env s u = .error e) :
    ∃ t, e = .plain ("failed to create user: " ++ t) := by
  unfold userRepository.Create at h
  split at h
  · simp only [Except.error.injEq] at h
    exact ⟨_, h.symm⟩
  · split at h
    · simp only [Except.error.injEq] at h
      exact ⟨_, h.symm⟩
    · split at h
      · simp only [Except.error.injEq] at h
        exact ⟨_, h.symm⟩
      · simp at h

theorem userCreate_ok (env : InsertEnv) (s s2 : Store) (u r : User)
    (h : userRepository.Create env s u = .ok (s2, r)) :
    r = { ID := env.id, PhoneNumber := u.PhoneNumber, CreatedAt := env.now, UpdatedAt := env.now }
      ∧ s2 = { s with users := s.users ++ [r] }
      ∧ (∀ x ∈ s.users, x.ID ≠ env.id) ∧ (∀ x ∈ s.users, x.PhoneNumber ≠ u.PhoneNumber) := by
  unfold userRepository.Create at h
  split at h
  · simp at h
  · split at h
    · simp at h
    · split at h
      · simp at h
      · rename_i h1 h2
        simp only [Except.ok.injEq, Prod.mk.injEq] at h
        obtain ⟨hs, hr⟩ := h
        subst hr
        refine ⟨rfl, hs.symm, ?_, ?_⟩
        · intro x hx
          have := h1
          simp only [Bool.not_eq_true, List.any_eq_false] at this
          simpa using this x hx
        · intro x hx
          have := h2
          simp only [Bool.not_eq_true, List.any_eq_false] at this
          simpa using this x hx

theorem getByPhone_ok (fault : Option String) (s : Store) (phone : String) (u : User)
    (h : userRepository.GetByPhoneNumber fault s phone = .ok u) :
    u ∈ s.users ∧ u.PhoneNumber = phone := by
  unfold userRepository.GetByPhoneNumber at h
  cases fault with
  | some t => simp at h
  | none =>
    simp only at h
    cases hg : gormFirst User.ID (s.users.filter (fun u => u.PhoneNumber == phone)) with
    | none => rw [hg] at h; simp at h
    | some x =>
      rw [hg] at h
      simp only [Except.ok.injEq] at h
      subst h
      have := (gormFirst_mem User.ID _ x hg).1
      simpa using this

theorem getByPhone_error (fault : Option String) (s : Store) (phone : String) (e : GoError)
    (h : userRepository.GetByPhoneNumber fault s phone = .error e) :
    (∃ t, e = .plain t) ∨
      (e = .app ErrUserNotFound ∧ ∀ x ∈ s.users, x.PhoneNumber ≠ phone) := by
  unfold userRepository.GetByPhoneNumber at h
  cases fault with
  | some t =>
    simp only [Except.error.injEq] at h
    exact Or.inl ⟨_, h.symm⟩
  | none =>
    simp only at h
    cases hg : gormFirst User.ID (s.users.filter (fun u => u.PhoneNumber == phone)) with
    | none =>
      rw [hg] at h
      simp only [Except.error.injEq] at h
      refine Or.inr ⟨h.symm, ?_⟩
      have := (gormFirst_eq_none User.ID _).mp hg
      rw [List.filter_eq_nil_iff] at this
      intro x hx
      simpa using this x hx
    | some x => rw [hg] at h; simp at h

theorem recent_none (A : List OTPAttempt) (phone : String) (q : OTPAttempt → Bool)
    (h : ∀ a ∈ A, a.PhoneNumber ≠ phone) :
    A.filter (fun a => a.PhoneNumber == phone && q a) = [] := by
  rw [List.filter_eq_nil_iff]
  intro a ha
  simp [h a ha]

/-! ## Lemmas on the service -/

/-- A send whose count query finds the limit reached returns `ErrRateLimitExceeded` and leaves the store as it was. -/
theorem sendOTP_blocked (cfg : OTPConfig) (env : SendEnv) (s : Store) (phone : String)
    (hv : ValidatePhoneNumber phone = [])
    (hf : env.countFault = none)
    (hc : cfg.MaxAttempts ≤ ((recentAttempts s phone (env.checkNow - cfg.RateWindow)).length : Int)) :
    OTPService.SendOTP cfg env s phone = (s, some (.app ErrRateLimitExceeded)) := by
  have hc2 : cfg.MaxAttempts ≤ ((recentAttempts s phone (env.checkNow + -cfg.RateWindow)).length : Int) := by
    rw [← Int.sub_eq_add_neg]; exact hc
  simp [OTPService.SendOTP, hasErrors_nil hv, OTPService.checkRateLimit,
    otpAttemptRepository.CountRecentAttempts, hf, hc2]

/-- A send that passes every check appends one row to `otps` and one to `otp_attempts`. -/
theorem sendOTP_step (cfg : OTPConfig) (env : SendEnv) (s : Store) (phone : String)
    (hv : ValidatePhoneNumber phone = [])
    (hh : env.healthy)
    (hc : ((recentAttempts s phone (env.checkNow + -cfg.RateWindow)).length : Int)
      < cfg.MaxAttempts)
    (ho : ∀ o ∈ s.otps, o.ID ≠ env.otpInsert.id)
    (ha : ∀ a ∈ s.otp_attempts, a.ID ≠ env.attemptInsert.id) :
    ∃ code, OTPService.SendOTP cfg env s phone =
      ({ otps := s.otps ++ [⟨env.otpInsert.id, phone, code, env.otpInsert.now,
                              env.expiryNow + cfg.ExpiryTime, false⟩],
         otp_attempts := s.otp_attempts ++ [⟨env.attemptInsert.id, phone, env.attemptInsert.now⟩],
         users := s.users }, none) := by
  obtain ⟨h1, h2, h3, h4⟩ := hh
  obtain ⟨n, hn⟩ : ∃ n, env.draw = .ok n := by
    cases hd : env.draw with
    | error e => rw [hd] at h4; simp [Except.toBool] at h4
    | ok n => exact ⟨n, rfl⟩
  have hc2 : ¬ (cfg.MaxAttempts ≤
      ((recentAttempts s phone (env.checkNow + -cfg.RateWindow)).length : Int)) := not_le.mpr hc
  have ho2 : (s.otps.any (fun o => o.ID == env.otpInsert.id)) = false := by
    rw [List.any_eq_false]
    intro o hmem
    simpa using ho o hmem
  have ha2 : (s.otp_attempts.any (fun a => a.ID == env.attemptInsert.id)) = false := by
    rw [List.any_eq_false]
    intro a hmem
    simpa using ha a hmem
  refine ⟨sprintf06d (n + 100000), ?_⟩
  simp [OTPService.SendOTP, hasErrors_nil hv, OTPService.checkRateLimit,
    otpAttemptRepository.CountRecentAttempts, h1, hc2, GenerateOTP, hn, otpRepository.Create, h2,
    ho2, otpAttemptRepository.Create, h3, ha2]

theorem none_afterLookup (s : Store) : Interleaving.none.afterLookup s = s := rfl

theorem none_afterMark (s : Store) : Interleaving.none.afterMark s = s := rfl

theorem none_afterUserLookup (s : Store) : Interleaving.none.afterUserLookup s = s := rfl

/-- On a code within Latin-1 the outcome of `VerifyOTPAmong` is the same for every digit
table. -/
theorem verifyOTPAmong_latin1 (digitTable table2 : Char → Bool) (il : Interleaving)
    (env : VerifyEnv) (s : Store) (phone code : String)
    (h : ∀ ch ∈ code.data, ch.toNat ≤ 0xFF) :
    OTPService.VerifyOTPAmong digitTable il env s phone code
      = OTPService.VerifyOTPAmong table2 il env s phone code := by
  unfold OTPService.VerifyOTPAmong
  rw [validateOTPCode_latin1 digitTable table2 code h]

/-- Every way a call of `VerifyOTPAmong` ends, read off the code path taken. -/
theorem verifyOTPAmong_cases {digitTable : Char → Bool}
    (il : Interleaving) (env : VerifyEnv) (s : Store)
    (phone code : String)
    (hv1 : ValidatePhoneNumber phone = []) (hv2 : ValidateOTPCode digitTable code = []) :
    (∃ e, otpRepository.GetValidOTP env.findFault env.now s phone code = .error e ∧
        OTPService.VerifyOTPAmong digitTable il env s phone code = (s, .error e)) ∨
    (∃ otp, otpRepository.GetValidOTP env.findFault env.now s phone code = .ok otp ∧
      ((∃ e, otpRepository.MarkAsUsed env.markFault (il.afterLookup s) otp.ID = .error e ∧
          OTPService.VerifyOTPAmong digitTable il env s phone code = (il.afterLookup s, .error e)) ∨
       (∃ s2, otpRepository.MarkAsUsed env.markFault (il.afterLookup s) otp.ID = .ok s2 ∧
          ((∃ u, userRepository.GetByPhoneNumber env.userFindFault (il.afterMark s2) phone
                = .ok u ∧
              OTPService.VerifyOTPAmong digitTable il env s phone code = (il.afterMark s2, .ok u)) ∨
           (∃ e, userRepository.GetByPhoneNumber env.userFindFault (il.afterMark s2) phone
                = .error e ∧ e ≠ .app ErrUserNotFound ∧
              OTPService.VerifyOTPAmong digitTable il env s phone code = (il.afterMark s2, .error e)) ∨
           (userRepository.GetByPhoneNumber env.userFindFault (il.afterMark s2) phone
                = .error (.app ErrUserNotFound) ∧
              ((∃ e, userRepository.Create env.userInsert (il.afterUserLookup (il.afterMark s2))
                    ⟨0, phone, 0, 0⟩ = .error e ∧
                  OTPService.VerifyOTPAmong digitTable il env s phone code
                    = (il.afterUserLookup (il.afterMark s2), .error e)) ∨
               (∃ s5 u, userRepository.Create env.userInsert
                    (il.afterUserLookup (il.afterMark s2)) ⟨0, phone, 0, 0⟩ = .ok (s5, u) ∧
                  OTPService.VerifyOTPAmong digitTable il env s phone code = (s5, .ok u)))))))) := by
  simp only [OTPService.VerifyOTPAmong, hasErrors_nil hv1, hasErrors_nil hv2]
  cases hg : otpRepository.GetValidOTP env.findFault env.now s phone code with
  | error e => left; exact ⟨e, rfl, by simp⟩
  | ok otp =>
    right
    refine ⟨otp, rfl, ?_⟩
    cases hm : otpRepository.MarkAsUsed env.markFault (il.afterLookup s) otp.ID with
    | error e => left; exact ⟨e, rfl, by simp [hm]⟩
    | ok s2 =>
      right
      refine ⟨s2, rfl, ?_⟩
      cases hu : userRepository.GetByPhoneNumber env.userFindFault (il.afterMark s2) phone with
      | ok u => left; exact ⟨u, rfl, by simp [hm, hu]⟩
      | error e =>
        right
        by_cases he : e = .app ErrUserNotFound
        · right
          subst he
          refine ⟨rfl, ?_⟩
          cases hc : userRepository.Create env.userInsert (il.afterUserLookup (il.afterMark s2))
              ⟨0, phone, 0, 0⟩ with
          | error e2 => left; exact ⟨e2, rfl, by simp [hm, hu, hc]⟩
          | ok p =>
            right
            obtain ⟨s5, u⟩ := p
            exact ⟨s5, u, rfl, by simp [hm, hu, hc]⟩
        · left
          exact ⟨e, rfl, he, by simp [hm, hu, he]⟩

theorem verifyOTPAmong_ok_valid {digitTable : Char → Bool}
    (il : Interleaving) (env : VerifyEnv) (s s1 : Store)
    (phone code : String) (u : User)
    (h : OTPService.VerifyOTPAmong digitTable il env s phone code = (s1, .ok u)) :
    ValidatePhoneNumber phone = [] ∧ ValidateOTPCode digitTable code = [] := by
  unfold OTPService.VerifyOTPAmong at h
  constructor
  · by_contra hn
    have : (ValidatePhoneNumber phone).HasErrors = true := by
      cases hh : (ValidatePhoneNumber phone).HasErrors with
      | true => rfl
      | false => exact absurd ((hasErrors_false_iff _).mp hh) hn
    simp [this] at h
  · by_contra hn
    have : (ValidateOTPCode digitTable code).HasErrors = true := by
      cases hh : (ValidateOTPCode digitTable code).HasErrors with
      | true => rfl
      | false => exact absurd ((hasErrors_false_iff _).mp hh) hn
    split at h
    · simp at h
    · simp [this] at h

/-- A verification that finds no unused row for the pair fails with `ErrInvalidOTP` and leaves
the store as it was. -/
theorem verifyOTP_no_match {digitTable : Char → Bool}
    (env : VerifyEnv) (s : Store) (phone code : String)
    (hv1 : ValidatePhoneNumber phone = []) (hv2 : ValidateOTPCode digitTable code = [])
    (hf : env.findFault = none) (hl : lookupUnused s phone code = none) :
    OTPService.VerifyOTP digitTable env s phone code = (s, .error (.app ErrInvalidOTP)) := by
  simp [OTPService.VerifyOTP, OTPService.VerifyOTPAmong, hasErrors_nil hv1, hasErrors_nil hv2,
    otpRepository.GetValidOTP, hf, hl]

/-- A verification whose query delivers an expired row fails with `ErrOTPExpired` and leaves the
store as it was. -/
theorem verifyOTP_first_expired {digitTable : Char → Bool}
    (env : VerifyEnv) (s : Store) (phone code : String) (o : OTP)
    (hv1 : ValidatePhoneNumber phone = []) (hv2 : ValidateOTPCode digitTable code = [])
    (hf : env.findFault = none) (hl : lookupUnused s phone code = some o)
    (hexp : o.ExpiresAt < env.now) :
    OTPService.VerifyOTP digitTable env s phone code = (s, .error (.app ErrOTPExpired)) := by
  simp [OTPService.VerifyOTP, OTPService.VerifyOTPAmong, hasErrors_nil hv1, hasErrors_nil hv2,
    otpRepository.GetValidOTP, hf, hl, OTP.IsExpired, hexp]

/-! ## The claims -/

/-- Claim C1: for a valid phone number, when the attempts of that number after
`now - RateWindow` number at least `MaxAttempts` (the count query itself running), `SendOTP`
returns `ErrRateLimitExceeded` and the store is exactly what it was: no code is drawn into a
record, no row is added to `otps` or to `otp_attempts`. -/
theorem sendOTP_rate_limit_blocks (cfg : OTPConfig) (env : SendEnv) (s : Store) (phone : String)
    (hv : ValidatePhoneNumber phone = [])
    (hf : env.countFault = none)
    (hc : cfg.MaxAttempts ≤
      ((recentAttempts s phone (env.checkNow - cfg.RateWindow)).length : Int)) :
    OTPService.SendOTP cfg env s phone = (s, some (.app ErrRateLimitExceeded)) :=
  sendOTP_blocked cfg env s phone hv hf hc

/-- Witness of C1: three attempts at minutes 1 to 3, a fourth send at minute 5 with the ten
minute window. -/
theorem sendOTP_rate_limit_blocks_witness :
    OTPService.SendOTP LoadConfig (demoSend 4 (5 * minute)) blockedStore demoPhone =
      (blockedStore, some (.app ErrRateLimitExceeded)) :=
  sendOTP_rate_limit_blocks LoadConfig (demoSend 4 (5 * minute)) blockedStore demoPhone
    (by decide) (by decide) (by decide)

/-- Claim C2: with `MaxAttempts = 3`, a store without attempts of a valid phone number and four
consecutive `SendOTP` calls for it whose collaborators all work (no driver failure, successful
draws, new identifiers), with a clock that never runs backwards and the first call inside the
rate window of the fourth, the first three calls return `nil` and the fourth returns
`ErrRateLimitExceeded`. -/
theorem sendOTP_fourth_call_rate_limited (cfg : OTPConfig) (s : Store) (phone : String)
    (e1 e2 e3 e4 : SendEnv)
    (hmax : cfg.MaxAttempts = 3)
    (hv : ValidatePhoneNumber phone = [])
    (hnone : ∀ a ∈ s.otp_attempts, a.PhoneNumber ≠ phone)
    (hh : e1.healthy ∧ e2.healthy ∧ e3.healthy ∧ e4.healthy)
    (hoid : [e1.otpInsert.id, e2.otpInsert.id, e3.otpInsert.id].Nodup ∧
      ∀ o ∈ s.otps, o.ID ∉ [e1.otpInsert.id, e2.otpInsert.id, e3.otpInsert.id])
    (haid : [e1.attemptInsert.id, e2.attemptInsert.id, e3.attemptInsert.id].Nodup ∧
      ∀ a ∈ s.otp_attempts,
        a.ID ∉ [e1.attemptInsert.id, e2.attemptInsert.id, e3.attemptInsert.id])
    (hclock : e1.clockOrdered ∧ e2.clockOrdered ∧ e3.clockOrdered ∧
      e1.attemptInsert.now ≤ e2.checkNow ∧ e2.attemptInsert.now ≤ e3.checkNow ∧
      e3.attemptInsert.now ≤ e4.checkNow)
    (hwin : e4.checkNow - cfg.RateWindow < e1.checkNow) :
    (OTPService.sendSeq cfg phone [e1, e2, e3, e4] s).2 =
      [none, none, none, some (.app ErrRateLimitExceeded)] := by
  obtain ⟨hh1, hh2, hh3, hh4⟩ := hh
  obtain ⟨hon, hos⟩ := hoid
  obtain ⟨han, has⟩ := haid
  obtain ⟨⟨c1a, c1b, c1c⟩, ⟨c2a, c2b, c2c⟩, ⟨c3a, c3b, c3c⟩, c12, c23, c34⟩ := hclock
  simp only [List.nodup_cons, List.mem_cons, List.mem_singleton, List.not_mem_nil, or_false,
    not_or, List.nodup_nil, and_true, not_false_eq_true] at hon han hos has
  -- first call
  have k1 : ((recentAttempts s phone (e1.checkNow + -cfg.RateWindow)).length : Int)
      < cfg.MaxAttempts := by
    unfold recentAttempts
    rw [recent_none _ phone _ hnone, hmax]
    decide
  obtain ⟨code1, r1⟩ := sendOTP_step cfg e1 s phone hv hh1 k1
    (fun o ho => (hos o ho).1) (fun a ha => (has a ha).1)
  -- second call
  have k2 : ((recentAttempts (OTPService.SendOTP cfg e1 s phone).1 phone
      (e2.checkNow + -cfg.RateWindow)).length : Int) < cfg.MaxAttempts := by
    simp only [r1, recentAttempts, List.filter_append, recent_none _ phone _ hnone, List.nil_append,
      hmax]
    have := List.length_filter_le
      (fun a : OTPAttempt => a.PhoneNumber == phone &&
        decide (e2.checkNow + -cfg.RateWindow < a.AttemptTime))
      [⟨e1.attemptInsert.id, phone, e1.attemptInsert.now⟩]
    simp only [List.length_singleton] at this
    omega
  obtain ⟨code2, r2⟩ := sendOTP_step cfg e2 _ phone hv hh2 k2
    (by
      simp only [r1]
      intro o ho
      rcases List.mem_append.mp ho with ho | ho
      · exact (hos o ho).2.1
      · simp only [List.mem_singleton] at ho
        subst ho
        exact hon.1.1)
    (by
      simp only [r1]
      intro a ha
      rcases List.mem_append.mp ha with ha | ha
      · exact (has a ha).2.1
      · simp only [List.mem_singleton] at ha
        subst ha
        exact han.1.1)
  simp only [r1] at r2
  -- third call
  have k3 : ((recentAttempts (OTPService.SendOTP cfg e2 (OTPService.SendOTP cfg e1 s phone).1
      phone).1 phone (e3.checkNow + -cfg.RateWindow)).length : Int) < cfg.MaxAttempts := by
    simp only [r1, r2, recentAttempts, List.filter_append, recent_none _ phone _ hnone, List.nil_append,
      hmax, List.length_append]
    have h1 := List.length_filter_le
      (fun a : OTPAttempt => a.PhoneNumber == phone &&
        decide (e3.checkNow + -cfg.RateWindow < a.AttemptTime))
      [⟨e1.attemptInsert.id, phone, e1.attemptInsert.now⟩]
    have h2 := List.length_filter_le
      (fun a : OTPAttempt => a.PhoneNumber == phone &&
        decide (e3.checkNow + -cfg.RateWindow < a.AttemptTime))
      [⟨e2.attemptInsert.id, phone, e2.attemptInsert.now⟩]
    simp only [List.length_singleton] at h1 h2
    omega
  obtain ⟨code3, r3⟩ := sendOTP_step cfg e3 _ phone hv hh3 k3
    (by
      simp only [r1, r2]
      intro o ho
      rcases List.mem_append.mp ho with ho | ho
      · rcases List.mem_append.mp ho with ho | ho
        · exact (hos o ho).2.2
        · simp only [List.mem_singleton] at ho
          subst ho
          exact hon.1.2
      · simp only [List.mem_singleton] at ho
        subst ho
        exact hon.2)
    (by
      simp only [r1, r2]
      intro a ha
      rcases List.mem_append.mp ha with ha | ha
      · rcases List.mem_append.mp ha with ha | ha
        · exact (has a ha).2.2
        · simp only [List.mem_singleton] at ha
          subst ha
          exact han.1.2
      · simp only [List.mem_singleton] at ha
        subst ha
        exact han.2)
  simp only [r1, r2] at r3
  -- fourth call
  have t1 : e4.checkNow - cfg.RateWindow < e1.attemptInsert.now := by linarith
  have t2 : e4.checkNow - cfg.RateWindow < e2.attemptInsert.now := by linarith
  have t3 : e4.checkNow - cfg.RateWindow < e3.attemptInsert.now := by linarith
  have k4 : cfg.MaxAttempts ≤
      ((recentAttempts
        { otps := ((s.otps ++ [⟨e1.otpInsert.id, phone, code1, e1.otpInsert.now,
              e1.expiryNow + cfg.ExpiryTime, false⟩]) ++
            [⟨e2.otpInsert.id, phone, code2, e2.otpInsert.now,
              e2.expiryNow + cfg.ExpiryTime, false⟩]) ++
            [⟨e3.otpInsert.id, phone, code3, e3.otpInsert.now,
              e3.expiryNow + cfg.ExpiryTime, false⟩],
          otp_attempts := ((s.otp_attempts ++
              [⟨e1.attemptInsert.id, phone, e1.attemptInsert.now⟩]) ++
              [⟨e2.attemptInsert.id, phone, e2.attemptInsert.now⟩]) ++
              [⟨e3.attemptInsert.id, phone, e3.attemptInsert.now⟩],
          users := s.users }
        phone (e4.checkNow - cfg.RateWindow)).length : Int) := by
    simp only [recentAttempts, List.filter_append, recent_none _ phone _ hnone, hmax]
    simp [t1, t2, t3]
  have r4 := sendOTP_blocked cfg e4 _ phone hv hh4.1 k4
  simp only [OTPService.sendSeq, r1, r2, r3, r4]

/-- Witness of C2: four sends one minute apart under the configuration of `LoadConfig`. -/
theorem sendOTP_fourth_call_rate_limited_witness :
    (OTPService.sendSeq LoadConfig demoPhone
      [demoSend 1 0, demoSend 2 minute, demoSend 3 (2 * minute), demoSend 4 (3 * minute)]
      seedStore).2 = [none, none, none, some (.app ErrRateLimitExceeded)] :=
  sendOTP_fourth_call_rate_limited LoadConfig seedStore demoPhone
    (demoSend 1 0) (demoSend 2 minute) (demoSend 3 (2 * minute)) (demoSend 4 (3 * minute))
    (by decide) (by decide) (by decide) (by decide) (by decide) (by decide) (by decide)
    (by decide)

/-- Counterexample to C3: the store holds an unused record of the pair that is still valid at
minute 5 (identifier 2, expiring at minute 6), yet the lookup delivers the older unused record
(identifier 1, expired at minute 2), so `GetValidOTP` and `VerifyOTP` fail with
`ErrOTPExpired`. -/
theorem getValidOTP_valid_record_shadowed :
    ValidatePhoneNumber demoPhone = [] ∧ ValidateOTPCode noFurtherDigits demoCode = [] ∧
    (⟨2, demoPhone, demoCode, 4 * minute, 6 * minute, false⟩ : OTP) ∈ resentStore.otps ∧
    (5 * minute : Time) ≤ (⟨2, demoPhone, demoCode, 4 * minute, 6 * minute, false⟩ : OTP).ExpiresAt ∧
    otpRepository.GetValidOTP none (5 * minute) resentStore demoPhone demoCode
      = .error (.app ErrOTPExpired) ∧
    OTPService.VerifyOTP noFurtherDigits (demoVerify (5 * minute)) resentStore demoPhone demoCode
      = (resentStore, .error (.app ErrOTPExpired)) := by
  decide

/-- Claim C3, amended: for valid phone number and code, if the store holds a record `o` of the
pair that is valid for verification (unused, `now <= expiresAt`) and no unused record of the
pair with an identifier up to that of `o` is expired, then (the lookup query itself running)
`GetValidOTP` returns a record of the pair that is valid for verification, and `VerifyOTP` fails
with neither `ErrInvalidOTP` nor `ErrOTPExpired`. -/
theorem getValidOTP_first_match_valid (digitTable : Char → Bool)
    (env : VerifyEnv) (s : Store) (phone code : String)
    (o : OTP)
    (hv1 : ValidatePhoneNumber phone = []) (hv2 : ValidateOTPCode digitTable code = [])
    (hf : env.findFault = none)
    (ho : o ∈ s.otps ∧ o.PhoneNumber = phone ∧ o.Code = code)
    (hvalid : o.IsUsed = false ∧ env.now ≤ o.ExpiresAt)
    (hlow : ∀ r ∈ s.otps, r.PhoneNumber = phone → r.Code = code → r.IsUsed = false →
      r.ID ≤ o.ID → env.now ≤ r.ExpiresAt) :
    (∃ r, otpRepository.GetValidOTP env.findFault env.now s phone code = .ok r ∧
        r ∈ s.otps ∧ r.PhoneNumber = phone ∧ r.Code = code ∧
        r.IsUsed = false ∧ env.now ≤ r.ExpiresAt) ∧
    (OTPService.VerifyOTP digitTable env s phone code).2 ≠ .error (.app ErrInvalidOTP) ∧
    (OTPService.VerifyOTP digitTable env s phone code).2 ≠ .error (.app ErrOTPExpired) := by
  -- the row the query delivers
  obtain ⟨r, hr⟩ : ∃ r, lookupUnused s phone code = some r := by
    cases hl : lookupUnused s phone code with
    | some r => exact ⟨r, rfl⟩
    | none =>
      exact absurd ⟨ho.2.1, ho.2.2, hvalid.1⟩ ((lookupUnused_none_iff s phone code).mp hl o ho.1)
  obtain ⟨⟨hr1, hr2, hr3, hr4⟩, hmin⟩ := lookupUnused_some s phone code r hr
  have hle : r.ID ≤ o.ID := hmin o ho.1 ho.2.1 ho.2.2 hvalid.1
  have hexp : env.now ≤ r.ExpiresAt := hlow r hr1 hr2 hr3 hr4 hle
  have hget : otpRepository.GetValidOTP env.findFault env.now s phone code = .ok r := by
    simp [otpRepository.GetValidOTP, hf, hr, OTP.IsExpired, not_lt.mpr hexp]
  refine ⟨⟨r, hget, hr1, hr2, hr3, hr4, hexp⟩, ?_⟩
  have key : ∀ a : AppError, a = ErrInvalidOTP ∨ a = ErrOTPExpired →
      (OTPService.VerifyOTP digitTable env s phone code).2 ≠ .error (.app a) := by
    intro a ha
    unfold OTPService.VerifyOTP
    rcases verifyOTPAmong_cases Interleaving.none env s phone code hv1 hv2 with
      ⟨e, h1, _⟩ | ⟨otp, h1, h2⟩
    · rw [hget] at h1; simp at h1
    · rw [hget] at h1
      simp only [Except.ok.injEq] at h1
      subst h1
      rcases h2 with ⟨e, hm, hres⟩ | ⟨s2, hm, h3⟩
      · rw [hres]
        rcases markAsUsed_error _ _ _ _ hm with ⟨t, rfl⟩ | ⟨_, h0⟩
        · simp
        · exact absurd h0 (rowsWithID_pos s r hr1)
      · rcases h3 with ⟨u, _, hres⟩ | ⟨e, hu, hne, hres⟩ | ⟨_, ⟨e, hc, hres⟩ | ⟨s5, u, _, hres⟩⟩
        · rw [hres]; simp
        · rw [hres]
          rcases getByPhone_error _ _ _ _ hu with ⟨t, rfl⟩ | ⟨rfl, _⟩
          · simp
          · exact absurd rfl hne
        · rw [hres]
          obtain ⟨t, rfl⟩ := userCreate_error _ _ _ _ hc
          simp
        · rw [hres]; simp
  exact ⟨key _ (Or.inl rfl), key _ (Or.inr rfl)⟩

/-- Witness of C3: at minute 1 the record with the least identifier is still valid. -/
theorem getValidOTP_first_match_valid_witness :
    (∃ r, otpRepository.GetValidOTP none minute resentStore demoPhone demoCode = .ok r ∧
        r ∈ resentStore.otps ∧ r.PhoneNumber = demoPhone ∧ r.Code = demoCode ∧
        r.IsUsed = false ∧ minute ≤ r.ExpiresAt) ∧
    (OTPService.VerifyOTP noFurtherDigits (demoVerify minute) resentStore demoPhone demoCode).2
      ≠ .error (.app ErrInvalidOTP) ∧
    (OTPService.VerifyOTP noFurtherDigits (demoVerify minute) resentStore demoPhone demoCode).2
      ≠ .error (.app ErrOTPExpired) :=
  getValidOTP_first_match_valid noFurtherDigits (demoVerify minute) resentStore demoPhone demoCode
    ⟨1, demoPhone, demoCode, 0, 2 * minute, false⟩
    (by decide) (by decide) rfl (by decide) (by decide) (by decide)

/-- Counterexample to C4: with two unused, unexpired records of the same phone number and code
in the store, `VerifyOTP` succeeds and the immediately following `VerifyOTP` with the same
arguments succeeds again. -/
theorem verifyOTP_twice_succeeds_on_twin_codes :
    (OTPService.VerifyOTP noFurtherDigits (demoVerify minute) twinStore demoPhone demoCode).2
      = .ok ⟨7, demoPhone, 0, 0⟩ ∧
    (OTPService.VerifyOTP noFurtherDigits (demoVerify minute)
        (OTPService.VerifyOTP noFurtherDigits (demoVerify minute) twinStore demoPhone demoCode).1
        demoPhone demoCode).2 = .ok ⟨7, demoPhone, 0, 0⟩ := by
  decide

/-- Claim C4, amended: if `VerifyOTP(phone, code)` succeeds on a store that holds at most one
unused record of that phone number and code, then an immediately following `VerifyOTP` with the
same arguments (its lookup query running) fails with `ErrInvalidOTP` and changes nothing. -/
theorem verifyOTP_twice_invalid (digitTable : Char → Bool)
    (env1 env2 : VerifyEnv) (s s1 : Store) (phone code : String)
    (u : User)
    (h : OTPService.VerifyOTP digitTable env1 s phone code = (s1, .ok u))
    (hone : (unusedMatches s phone code).length ≤ 1)
    (hf : env2.findFault = none) :
    OTPService.VerifyOTP digitTable env2 s1 phone code = (s1, .error (.app ErrInvalidOTP)) := by
  obtain ⟨hv1, hv2⟩ := verifyOTPAmong_ok_valid _ _ _ _ _ _ _ h
  -- the first call: which row was matched, and what the store looks like afterwards
  have hs1 : ∃ otp, lookupUnused s phone code = some otp ∧
      s1.otps = s.otps.map (fun o => if o.ID == otp.ID then { o with IsUsed := true } else o) := by
    unfold OTPService.VerifyOTP at h
    rcases verifyOTPAmong_cases Interleaving.none env1 s phone code hv1 hv2 with
      ⟨e, _, hres⟩ | ⟨otp, hg, h2⟩
    · rw [hres] at h; simp at h
    · refine ⟨otp, (getValidOTP_ok _ _ _ _ _ _ hg).1, ?_⟩
      rcases h2 with ⟨e, _, hres⟩ | ⟨s2, hm, h3⟩
      · rw [hres] at h; simp at h
      · have hs2 := markAsUsed_ok _ _ _ _ hm
        simp only [none_afterLookup, none_afterMark, none_afterUserLookup] at hs2 h3
        rcases h3 with ⟨u2, _, hres⟩ | ⟨e, _, _, hres⟩ | ⟨_, ⟨e, _, hres⟩ | ⟨s5, u2, hc, hres⟩⟩
        · rw [hres] at h
          simp only [Prod.mk.injEq] at h
          rw [← h.1, hs2]
        · rw [hres] at h; simp at h
        · rw [hres] at h; simp at h
        · rw [hres] at h
          simp only [Prod.mk.injEq] at h
          rw [← h.1, (userCreate_ok _ _ _ _ _ hc).2.1, hs2]
  obtain ⟨otp, hl, hotps⟩ := hs1
  obtain ⟨⟨m1, m2, m3, m4⟩, _⟩ := lookupUnused_some s phone code otp hl
  have hmem : otp ∈ unusedMatches s phone code :=
    (mem_unusedMatches s phone code otp).mpr ⟨m1, m2, m3, m4⟩
  -- every unused matching row of the old store is the matched one
  have hall : ∀ o ∈ unusedMatches s phone code, o = otp := by
    intro o ho
    match hu : unusedMatches s phone code, hone, hmem, ho with
    | [], _, hmem, _ => simp at hmem
    | [x], _, hmem, ho =>
      simp only [List.mem_singleton] at hmem ho
      rw [ho, hmem]
    | _ :: _ :: _, hone, _, _ => simp at hone
  have hnone : ∀ o ∈ s1.otps, ¬(o.PhoneNumber = phone ∧ o.Code = code ∧ o.IsUsed = false) := by
    intro o ho hm
    rw [hotps] at ho
    obtain ⟨o0, ho0, rfl⟩ := List.mem_map.mp ho
    by_cases hid : (o0.ID == otp.ID) = true
    · simp [hid] at hm
    · simp only [hid, Bool.false_eq_true, if_false] at hm
      have := hall o0 ((mem_unusedMatches s phone code o0).mpr ⟨ho0, hm⟩)
      subst this
      simp at hid
  exact verifyOTP_no_match env2 s1 phone code hv1 hv2 hf
    ((lookupUnused_none_iff s1 phone code).mpr hnone)

/-- Witness of C4: the single code of `singleStore`, verified twice at minute 1. -/
theorem verifyOTP_twice_invalid_witness :
    OTPService.VerifyOTP noFurtherDigits (demoVerify minute)
      { otps := [⟨1, demoPhone, demoCode, 0, 2 * minute, true⟩], otp_attempts := [],
        users := [⟨7, demoPhone, minute, minute⟩] } demoPhone demoCode =
      ({ otps := [⟨1, demoPhone, demoCode, 0, 2 * minute, true⟩], otp_attempts := [],
         users := [⟨7, demoPhone, minute, minute⟩] }, .error (.app ErrInvalidOTP)) :=
  verifyOTP_twice_invalid noFurtherDigits (demoVerify minute) (demoVerify minute) singleStore _ demoPhone demoCode
    ⟨7, demoPhone, minute, minute⟩ (by decide) (by decide) rfl

/-- Claim C5: for valid phone number and code (the lookup query itself running), when no unused
record matches the pair `VerifyOTP` fails with `ErrInvalidOTP`; when the unused record the lookup
matches has an expiry time earlier than now, `VerifyOTP` fails with `ErrOTPExpired` and the
store, that record included, is left as it was; and the two errors differ. -/
theorem verifyOTP_invalid_or_expired (digitTable : Char → Bool)
    (env : VerifyEnv) (s : Store) (phone code : String)
    (hv1 : ValidatePhoneNumber phone = []) (hv2 : ValidateOTPCode digitTable code = [])
    (hf : env.findFault = none) :
    ((∀ o ∈ s.otps, ¬(o.PhoneNumber = phone ∧ o.Code = code ∧ o.IsUsed = false)) →
        OTPService.VerifyOTP digitTable env s phone code = (s, .error (.app ErrInvalidOTP))) ∧
    (∀ o, lookupUnused s phone code = some o → o.ExpiresAt < env.now →
        OTPService.VerifyOTP digitTable env s phone code = (s, .error (.app ErrOTPExpired))) ∧
    ErrOTPExpired ≠ ErrInvalidOTP :=
  ⟨fun h => verifyOTP_no_match env s phone code hv1 hv2 hf
      ((lookupUnused_none_iff s phone code).mpr h),
    fun o hl hexp => verifyOTP_first_expired env s phone code o hv1 hv2 hf hl hexp,
    by decide⟩

/-- Witness of C5: expiry after two minutes, verification at minute 3. -/
theorem verifyOTP_invalid_or_expired_witness :
    OTPService.VerifyOTP noFurtherDigits (demoVerify (3 * minute)) singleStore demoPhone demoCode
      = (singleStore, .error (.app ErrOTPExpired)) :=
  (verifyOTP_invalid_or_expired noFurtherDigits (demoVerify (3 * minute)) singleStore demoPhone demoCode
    (by decide) (by decide) rfl).2.1 ⟨1, demoPhone, demoCode, 0, 2 * minute, false⟩
    (by decide) (by decide)

/-- Counterexample to C6: on a record whose used flag is already true, `MarkAsUsed` affects one
row and returns success, not `ErrInvalidOTP`. -/
theorem markAsUsed_succeeds_on_used_record :
    (⟨1, demoPhone, demoCode, 0, 2 * minute, true⟩ : OTP) ∈ usedStore.otps ∧
    rowsWithID usedStore 1 = 1 ∧
    otpRepository.MarkAsUsed none usedStore 1 = .ok usedStore := by
  decide

/-- Claim C6, amended: the mark-used update is conditioned on the identifier alone.  With the
update itself running, `MarkAsUsed(id)` returns `ErrInvalidOTP` exactly when no row has that
identifier (zero rows affected); when a row has it, used or not, at least one row is affected,
success is returned, and afterwards every row with that identifier has used = true while no row
is added or removed. -/
theorem markAsUsed_by_id (s : Store) (id : UUID) :
    (otpRepository.MarkAsUsed none s id = .error (.app ErrInvalidOTP) ↔
        ∀ o ∈ s.otps, o.ID ≠ id) ∧
    ((∃ o ∈ s.otps, o.ID = id) →
        ∃ s2, otpRepository.MarkAsUsed none s id = .ok s2 ∧ 1 ≤ rowsWithID s id ∧
          s2.otps = s.otps.map (fun o => if o.ID == id then { o with IsUsed := true } else o) ∧
          s2.otps.length = s.otps.length ∧
          ∀ o ∈ s2.otps, o.ID = id → o.IsUsed = true) := by
  have hrows : rowsWithID s id = 0 ↔ ∀ o ∈ s.otps, o.ID ≠ id := by
    unfold rowsWithID
    rw [List.length_eq_zero, List.filter_eq_nil_iff]
    simp
  constructor
  · unfold otpRepository.MarkAsUsed
    by_cases hr : rowsWithID s id = 0
    · simp only [hr, if_true]
      exact ⟨fun _ => hrows.mp hr, fun _ => trivial⟩
    · simp only [hr, if_false]
      constructor
      · intro h; simp at h
      · intro h; exact absurd (hrows.mpr h) hr
  · rintro ⟨o, ho, hid⟩
    have hr : rowsWithID s id ≠ 0 := fun h0 => hrows.mp h0 o ho hid
    refine ⟨{ s with otps := s.otps.map (fun o => if o.ID == id then { o with IsUsed := true }
                                                  else o) },
      by simp [otpRepository.MarkAsUsed, hr], Nat.one_le_iff_ne_zero.mpr hr, rfl, by simp, ?_⟩
    intro x hx hxid
    obtain ⟨x0, _, rfl⟩ := List.mem_map.mp hx
    by_cases h0 : (x0.ID == id) = true
    · simp [h0]
    · simp only [h0, Bool.false_eq_true, if_false] at hxid
      simp [hxid] at h0

/-- Witness of C6: the update on the already used record of `usedStore`. -/
theorem markAsUsed_by_id_witness :
    ∃ s2, otpRepository.MarkAsUsed none usedStore 1 = .ok s2 ∧ 1 ≤ rowsWithID usedStore 1 ∧
      s2.otps = usedStore.otps.map (fun o => if o.ID == 1 then { o with IsUsed := true } else o) ∧
      s2.otps.length = usedStore.otps.length ∧
      ∀ o ∈ s2.otps, o.ID = 1 → o.IsUsed = true :=
  (markAsUsed_by_id usedStore 1).2 ⟨⟨1, demoPhone, demoCode, 0, 2 * minute, true⟩, by decide, rfl⟩

/-- Claim C7: whenever `VerifyOTP(phone, code)` succeeds, the returned user has the given phone
number; if a user with that phone number was stored, the returned user is one of the stored
users and the users are unchanged (login); if none was stored, the returned user is new and is
the one row added to the users (registration). -/
theorem verifyOTP_resolves_user (digitTable : Char → Bool)
    (env : VerifyEnv) (s s1 : Store) (phone code : String) (u : User)
    (h : OTPService.VerifyOTP digitTable env s phone code = (s1, .ok u)) :
    u.PhoneNumber = phone ∧
    ((∃ x ∈ s.users, x.PhoneNumber = phone) → u ∈ s.users ∧ s1.users = s.users) ∧
    ((∀ x ∈ s.users, x.PhoneNumber ≠ phone) → u ∉ s.users ∧ s1.users = s.users ++ [u]) := by
  obtain ⟨hv1, hv2⟩ := verifyOTPAmong_ok_valid _ _ _ _ _ _ _ h
  unfold OTPService.VerifyOTP at h
  rcases verifyOTPAmong_cases Interleaving.none env s phone code hv1 hv2 with
    ⟨e, _, hres⟩ | ⟨otp, hg, h2⟩
  · rw [hres] at h; simp at h
  · rcases h2 with ⟨e, _, hres⟩ | ⟨s2, hm, h3⟩
    · rw [hres] at h; simp at h
    · have hs2 := markAsUsed_ok _ _ _ _ hm
      simp only [none_afterLookup, none_afterMark, none_afterUserLookup] at hs2 h3
      have husers : s2.users = s.users := by rw [hs2]
      rcases h3 with ⟨u2, hu, hres⟩ | ⟨e, _, _, hres⟩ | ⟨hu, ⟨e, _, hres⟩ | ⟨s5, u2, hc, hres⟩⟩
      · rw [hres] at h
        simp only [Prod.mk.injEq, Except.ok.injEq] at h
        obtain ⟨h1, h2⟩ := h
        subst h1 h2
        obtain ⟨hmem, hp⟩ := getByPhone_ok _ _ _ _ hu
        rw [husers] at hmem
        refine ⟨hp, fun _ => ⟨hmem, husers⟩, fun hno => absurd hp (hno _ hmem)⟩
      · rw [hres] at h; simp at h
      · rw [hres] at h; simp at h
      · rw [hres] at h
        simp only [Prod.mk.injEq, Except.ok.injEq] at h
        obtain ⟨h1, h2⟩ := h
        subst h1 h2
        obtain ⟨hrow, hs5, hfresh, hnophone⟩ := userCreate_ok _ _ _ _ _ hc
        rw [husers] at hfresh hnophone
        have hp : u2.PhoneNumber = phone := by rw [hrow]
        have hid : u2.ID = env.userInsert.id := by rw [hrow]
        have hnot : u2 ∉ s.users := fun hin => hfresh u2 hin hid
        refine ⟨hp, ?_, fun _ => ⟨hnot, by rw [hs5, husers]⟩⟩
        rintro ⟨x, hx, hxp⟩
        exact absurd hxp (hnophone x hx)

/-- Witness of C7: a first verification on `singleStore` registers user 7. -/
theorem verifyOTP_resolves_user_witness :
    (⟨7, demoPhone, minute, minute⟩ : User).PhoneNumber = demoPhone ∧
    ((∃ x ∈ singleStore.users, x.PhoneNumber = demoPhone) →
      (⟨7, demoPhone, minute, minute⟩ : User) ∈ singleStore.users ∧
        [(⟨7, demoPhone, minute, minute⟩ : User)] = singleStore.users) ∧
    ((∀ x ∈ singleStore.users, x.PhoneNumber ≠ demoPhone) →
      (⟨7, demoPhone, minute, minute⟩ : User) ∉ singleStore.users ∧
        [(⟨7, demoPhone, minute, minute⟩ : User)]
          = singleStore.users ++ [⟨7, demoPhone, minute, minute⟩]) :=
  verifyOTP_resolves_user noFurtherDigits (demoVerify minute) singleStore
    { otps := [⟨1, demoPhone, demoCode, 0, 2 * minute, true⟩], otp_attempts := [],
      users := [⟨7, demoPhone, minute, minute⟩] } demoPhone demoCode
    ⟨7, demoPhone, minute, minute⟩ (by decide)

/-- Counterexample to C8: the user lookup reports not-found, another request registers the phone
number, the creation then violates the unique index, and `VerifyOTP` returns the creation error
although a lookup on the resulting store would deliver the other request's user. -/
theorem verifyOTP_create_race_returns_error :
    userRepository.GetByPhoneNumber none singleStore demoPhone = .error (.app ErrUserNotFound) ∧
    OTPService.VerifyOTPAmong noFurtherDigits racingRegistration (demoVerify minute) singleStore demoPhone demoCode
      = ({ otps := [⟨1, demoPhone, demoCode, 0, 2 * minute, true⟩], otp_attempts := [],
           users := [⟨9, demoPhone, minute, minute⟩] },
         .error (.plain ("failed to create user: " ++ duplicateKey "idx_users_phone_number"))) ∧
    userRepository.GetByPhoneNumber none
      (OTPService.VerifyOTPAmong noFurtherDigits racingRegistration (demoVerify minute) singleStore demoPhone
        demoCode).1 demoPhone = .ok ⟨9, demoPhone, minute, minute⟩ := by
  decide

/-- Claim C8, amended: in the user-resolution step of `VerifyOTP`, when the lookup by phone number
reports not-found and a user with that phone number is stored by the time of the creation
(another request created it in between), `VerifyOTP` returns the wrapped creation error
`failed to create user: ...` and no user; nothing is fetched again, and the store is the one the
creation found. -/
theorem verifyOTP_create_race_fails (digitTable : Char → Bool)
    (il : Interleaving) (env : VerifyEnv) (s s2 : Store)
    (phone code : String) (otp : OTP)
    (hv1 : ValidatePhoneNumber phone = []) (hv2 : ValidateOTPCode digitTable code = [])
    (hg : otpRepository.GetValidOTP env.findFault env.now s phone code = .ok otp)
    (hm : otpRepository.MarkAsUsed env.markFault (il.afterLookup s) otp.ID = .ok s2)
    (hu : userRepository.GetByPhoneNumber env.userFindFault (il.afterMark s2) phone
      = .error (.app ErrUserNotFound))
    (hrace : ∃ x ∈ (il.afterUserLookup (il.afterMark s2)).users, x.PhoneNumber = phone) :
    ∃ text, OTPService.VerifyOTPAmong digitTable il env s phone code =
      (il.afterUserLookup (il.afterMark s2), .error (.plain ("failed to create user: " ++ text)))
      := by
  rcases verifyOTPAmong_cases il env s phone code hv1 hv2 with ⟨e, h1, _⟩ | ⟨otp2, h1, h2⟩
  · rw [hg] at h1; simp at h1
  · rw [hg] at h1
    simp only [Except.ok.injEq] at h1
    subst h1
    rcases h2 with ⟨e, h3, _⟩ | ⟨s3, h3, h4⟩
    · rw [hm] at h3; simp at h3
    · rw [hm] at h3
      simp only [Except.ok.injEq] at h3
      subst h3
      rcases h4 with ⟨u, h5, _⟩ | ⟨e, h5, hne, _⟩ | ⟨_, ⟨e, hc, hres⟩ | ⟨s5, u, hc, _⟩⟩
      · rw [hu] at h5; simp at h5
      · rw [hu] at h5
        simp only [Except.error.injEq] at h5
        exact absurd h5.symm hne
      · obtain ⟨t, rfl⟩ := userCreate_error _ _ _ _ hc
        exact ⟨t, hres⟩
      · obtain ⟨x, hx, hxp⟩ := hrace
        exact absurd hxp ((userCreate_ok _ _ _ _ _ hc).2.2.2 x hx)

/-- Witness of C8: the race of `racingRegistration` on `singleStore`. -/
theorem verifyOTP_create_race_fails_witness :
    ∃ text, OTPService.VerifyOTPAmong noFurtherDigits racingRegistration (demoVerify minute) singleStore demoPhone
        demoCode =
      ({ otps := [⟨1, demoPhone, demoCode, 0, 2 * minute, true⟩], otp_attempts := [],
           users := [⟨9, demoPhone, minute, minute⟩] },
        .error (.plain ("failed to create user: " ++ text))) :=
  verifyOTP_create_race_fails noFurtherDigits racingRegistration (demoVerify minute) singleStore
    { otps := [⟨1, demoPhone, demoCode, 0, 2 * minute, true⟩], otp_attempts := [], users := [] }
    demoPhone demoCode ⟨1, demoPhone, demoCode, 0, 2 * minute, false⟩
    (by decide) (by decide) (by decide) (by decide) (by decide) (by decide)

/-- Counterexample to C9: a well-formed number with a leading blank does not match the pattern,
and is reported without errors. -/
theorem validatePhoneNumber_accepts_padded :
    ¬ (ValidatePhoneNumber " 1234567890" = [] ↔
        (phoneRegexMatch " 1234567890".data = true ∧ 10 ≤ " 1234567890".data.length ∧
          " 1234567890".data.length ≤ 15)) := by
  decide

/-- Claim C9, amended: for every string `s`, `ValidatePhoneNumber(s)` reports no errors if and
only if `s` with its leading and trailing white space removed matches `^\+?[1-9]\d{1,14}$` and
has a length between 10 and 15 inclusive; every other string gets at least one error. -/
theorem validatePhoneNumber_nil_iff (s : String) :
    ValidatePhoneNumber s = [] ↔
      (phoneRegexMatch (TrimSpace s).data = true ∧ 10 ≤ (TrimSpace s).data.length ∧
        (TrimSpace s).data.length ≤ 15) := by
  unfold ValidatePhoneNumber TrimSpace
  by_cases hs : s = ""
  · subst hs
    simp
    decide
  · simp only [hs, if_false]
    by_cases hm : phoneRegexMatch (trimSpaceChars s.data) = true
    · have hl := goLen_eq_length _ (phoneRegexMatch_ascii hm)
      simp only [hl, hm, if_true, true_and, List.append_nil, List.append_eq_nil]
      constructor
      · rintro ⟨h1, h2⟩
        constructor
        · by_contra hc
          simp [Nat.lt_of_not_le hc] at h1
        · by_contra hc
          simp [Nat.lt_of_not_le hc] at h2
      · rintro ⟨h1, h2⟩
        constructor
        · simp [Nat.not_lt.mpr h1]
        · simp [Nat.not_lt.mpr h2]
    · simp [hm]

/-- Counterexample to C10: six digits with a leading blank are seven characters, and are
reported without errors. -/
theorem validateOTPCode_accepts_padded :
    ¬ (ValidateOTPCode noFurtherDigits " 123456" = [] ↔
        (" 123456".data.length = 6 ∧ " 123456".data.all isAsciiDigit = true)) := by
  decide

/-- Claim C10, amended: whatever the digit table of the library, for every string `c` that
contains no character that `unicode.IsDigit` takes for a decimal digit outside `0`-`9`,
`ValidateOTPCode(c)` reports no errors if and only if `c` with its leading and trailing white
space removed consists of exactly six characters `0`-`9`. -/
theorem validateOTPCode_nil_iff (digitTable : Char → Bool) (c : String)
    (h : ∀ ch ∈ c.data, unicodeIsDigit digitTable ch = true → isAsciiDigit ch = true) :
    ValidateOTPCode digitTable c = [] ↔
      ((TrimSpace c).data.length = 6 ∧ (TrimSpace c).data.all isAsciiDigit = true) := by
  have ht : ∀ ch ∈ trimSpaceChars c.data, unicodeIsDigit digitTable ch = true → isAsciiDigit ch = true :=
    fun ch hch => h ch (trimSpaceChars_subset _ ch hch)
  unfold ValidateOTPCode TrimSpace
  by_cases hs : c = ""
  · subst hs
    simp
    decide
  · simp only [hs, if_false, List.append_eq_nil]
    constructor
    · rintro ⟨h1, h2⟩
      have hall : ∀ ch ∈ trimSpaceChars c.data, isAsciiDigit ch = true := by
        intro ch hch
        apply ht ch hch
        by_contra hn
        have : (trimSpaceChars c.data).any (fun char => !unicodeIsDigit digitTable char) = true :=
          List.any_eq_true.mpr ⟨ch, hch, by simpa using hn⟩
        simp [this] at h2
      have hl := goLen_eq_length _ (fun ch hch => isAsciiDigit_toNat_le (hall ch hch))
      refine ⟨?_, List.all_eq_true.mpr hall⟩
      rw [← hl]
      by_contra hne
      simp [hne] at h1
    · rintro ⟨h1, h2⟩
      have hall : ∀ ch ∈ trimSpaceChars c.data, isAsciiDigit ch = true := List.all_eq_true.mp h2
      have hl := goLen_eq_length _ (fun ch hch => isAsciiDigit_toNat_le (hall ch hch))
      constructor
      · simp [hl, h1]
      · have : (trimSpaceChars c.data).any
            (fun char => !unicodeIsDigit digitTable char) = false := by
          rw [List.any_eq_false]
          intro ch hch
          simp [unicodeIsDigit_of_ascii digitTable (hall ch hch)]
        simp [this]

/-- Witness of C10: six digits with a leading blank. -/
theorem validateOTPCode_nil_iff_witness :
    ValidateOTPCode noFurtherDigits " 123456" = [] ↔
      ((TrimSpace " 123456").data.length = 6 ∧
        (TrimSpace " 123456").data.all isAsciiDigit = true) :=
  validateOTPCode_nil_iff noFurtherDigits " 123456" (by decide)

/-- Three Arabic-Indic digits fill six bytes; with a digit table that holds U+0660, as the
tables of the `unicode` package do, they pass `unicode.IsDigit`: `ValidateOTPCode` reports no
errors for a code of three characters, none of them in `0`-`9`. -/
theorem validateOTPCode_accepts_arabicIndic (digitTable : Char → Bool)
    (h : digitTable (Char.ofNat 0x660) = true) :
    ValidateOTPCode digitTable arabicIndicZeros = [] ∧ arabicIndicZeros.data.length = 3 ∧
      arabicIndicZeros.data.all isAsciiDigit = false := by
  have hd : unicodeIsDigit digitTable (Char.ofNat 0x660) = true := by
    unfold unicodeIsDigit
    rw [if_neg (by decide)]
    exact h
  have ht : trimSpaceChars arabicIndicZeros.data
      = [Char.ofNat 0x660, Char.ofNat 0x660, Char.ofNat 0x660] := by decide
  have hl : goLen [Char.ofNat 0x660, Char.ofNat 0x660, Char.ofNat 0x660] = 6 := by decide
  have he : arabicIndicZeros ≠ "" := by decide
  refine ⟨?_, by decide, by decide⟩
  unfold ValidateOTPCode
  simp only [he, if_false, ht, hl, List.any_cons, List.any_nil, hd]
  simp

/-! ## Lemmas on the code generator -/

theorem toDigitsCore_six (f m : Nat) (h1 : 100000 ≤ m) (h2 : m < 1000000) :
    Nat.toDigitsCore 10 (f + 6) m [] =
      [Nat.digitChar (m / 100000 % 10), Nat.digitChar (m / 10000 % 10),
       Nat.digitChar (m / 1000 % 10), Nat.digitChar (m / 100 % 10),
       Nat.digitChar (m / 10 % 10), Nat.digitChar (m % 10)] := by
  have e1 : m / 10 ≠ 0 := by omega
  have e2 : m / 10 / 10 ≠ 0 := by omega
  have e3 : m / 10 / 10 / 10 ≠ 0 := by omega
  have e4 : m / 10 / 10 / 10 / 10 ≠ 0 := by omega
  have e5 : m / 10 / 10 / 10 / 10 / 10 ≠ 0 := by omega
  have e6 : m / 10 / 10 / 10 / 10 / 10 / 10 = 0 := by omega
  have d2 : m / 10 / 10 = m / 100 := by omega
  have d3 : m / 100 / 10 = m / 1000 := by omega
  have d4 : m / 1000 / 10 = m / 10000 := by omega
  have d5 : m / 10000 / 10 = m / 100000 := by omega
  simp only [Nat.toDigitsCore, e1, e2, e3, e4, e5, e6, if_true, if_false]
  simp only [d2, d3, d4, d5]

theorem digitChar_props (d : Nat) (h : d < 10) :
    isAsciiDigit (Nat.digitChar d) = true ∧ (Nat.digitChar d).toNat - 48 = d := by
  interval_cases d <;> decide

theorem sprintf06d_data (m : Nat) (h1 : 100000 ≤ m) (h2 : m < 1000000) :
    (sprintf06d m).data =
      [Nat.digitChar (m / 100000 % 10), Nat.digitChar (m / 10000 % 10),
       Nat.digitChar (m / 1000 % 10), Nat.digitChar (m / 100 % 10),
       Nat.digitChar (m / 10 % 10), Nat.digitChar (m % 10)] := by
  have hf : m + 1 = (m - 5) + 6 := by omega
  simp [sprintf06d, Nat.toDigits, hf, toDigitsCore_six (m - 5) m h1 h2]

theorem sprintf06d_value (m : Nat) (h1 : 100000 ≤ m) (h2 : m < 1000000) :
    (sprintf06d m).data.length = 6 ∧ (sprintf06d m).data.all isAsciiDigit = true ∧
      decimalValue (sprintf06d m).data = m := by
  rw [sprintf06d_data m h1 h2]
  have p5 := digitChar_props (m / 100000 % 10) (Nat.mod_lt _ (by decide))
  have p4 := digitChar_props (m / 10000 % 10) (Nat.mod_lt _ (by decide))
  have p3 := digitChar_props (m / 1000 % 10) (Nat.mod_lt _ (by decide))
  have p2 := digitChar_props (m / 100 % 10) (Nat.mod_lt _ (by decide))
  have p1 := digitChar_props (m / 10 % 10) (Nat.mod_lt _ (by decide))
  have p0 := digitChar_props (m % 10) (Nat.mod_lt _ (by decide))
  refine ⟨rfl, ?_, ?_⟩
  · simp [p5.1, p4.1, p3.1, p2.1, p1.1, p0.1]
  · simp only [decimalValue, List.foldl_cons, List.foldl_nil, p5.2, p4.2, p3.2, p2.2, p1.2, p0.2]
    omega

/-! ## Lemmas on sending and on invalid input -/

theorem otpCreate_ok (env : InsertEnv) (s s1 : Store) (otp : OTP)
    (h : otpRepository.Create env s otp = .ok s1) :
    s1 = { s with otps := s.otps ++ [{ otp with ID := env.id, CreatedAt := env.now }] } := by
  unfold otpRepository.Create at h
  split at h
  · simp at h
  · split at h
    · simp at h
    · simp only [Except.ok.injEq] at h
      exact h.symm

theorem attemptCreate_ok (env : InsertEnv) (s s1 : Store) (a : OTPAttempt)
    (h : otpAttemptRepository.Create env s a = .ok s1) :
    s1 = { s with otp_attempts :=
            s.otp_attempts ++ [{ a with ID := env.id, AttemptTime := env.now }] } := by
  unfold otpAttemptRepository.Create at h
  split at h
  · simp at h
  · split at h
    · simp at h
    · simp only [Except.ok.injEq] at h
      exact h.symm

/-- For an invalid phone number `SendOTP` returns a plain error, which `HandleError` turns into
the internal server error. -/
theorem sendOTP_invalid_phone_error (cfg : OTPConfig) (env : SendEnv) (s : Store) (phone : String)
    (h : ValidatePhoneNumber phone ≠ []) :
    ∃ text, OTPService.SendOTP cfg env s phone = (s, some (.plain text)) ∧
      HandleError (.plain text) = ErrInternalServer.WithDetails text := by
  have hh : (ValidatePhoneNumber phone).HasErrors = true := by
    cases hc : (ValidatePhoneNumber phone).HasErrors with
    | true => rfl
    | false => exact absurd ((hasErrors_false_iff _).mp hc) h
  exact ⟨"validation failed: " ++ (ValidatePhoneNumber phone).Error,
    by simp [OTPService.SendOTP, hh], rfl⟩

/-- For an invalid phone number or an invalid code `VerifyOTP` returns a plain error. -/
theorem verifyOTP_invalid_input_error {digitTable : Char → Bool}
    (env : VerifyEnv) (s : Store) (phone code : String)
    (h : ValidatePhoneNumber phone ≠ [] ∨ ValidateOTPCode digitTable code ≠ []) :
    ∃ text, OTPService.VerifyOTP digitTable env s phone code = (s, .error (.plain text)) ∧
      HandleError (.plain text) = ErrInternalServer.WithDetails text := by
  by_cases h1 : (ValidatePhoneNumber phone).HasErrors = true
  · exact ⟨"validation failed: " ++ (ValidatePhoneNumber phone).Error,
      by simp [OTPService.VerifyOTP, OTPService.VerifyOTPAmong, h1], rfl⟩
  · have h1f : (ValidatePhoneNumber phone).HasErrors = false := by simpa using h1
    have h2 : (ValidateOTPCode digitTable code).HasErrors = true := by
      cases hc : (ValidateOTPCode digitTable code).HasErrors with
      | true => rfl
      | false =>
        rcases h with h | h
        · exact absurd ((hasErrors_false_iff _).mp h1f) h
        · exact absurd ((hasErrors_false_iff _).mp hc) h
    exact ⟨"validation failed: " ++ (ValidateOTPCode digitTable code).Error,
      by simp [OTPService.VerifyOTP, OTPService.VerifyOTPAmong, h1f, h2], rfl⟩

/-! ## Lemmas on the search query -/

theorem startsWith_iff (s sub : List Char) :
    startsWith s sub = true ↔ ∃ rest, s = sub ++ rest := by
  induction sub generalizing s with
  | nil => cases s <;> simp [startsWith]
  | cons d sub ih =>
    cases s with
    | nil => simp [startsWith]
    | cons c s =>
      simp only [startsWith, Bool.and_eq_true, beq_iff_eq, ih, List.cons_append, List.cons.injEq]
      constructor
      · rintro ⟨rfl, rest, rfl⟩
        exact ⟨rest, rfl, rfl⟩
      · rintro ⟨rest, rfl, rfl⟩
        exact ⟨rfl, rest, rfl⟩

theorem stringsContains_iff (s sub : List Char) :
    stringsContains s sub = true ↔ ∃ before rest, s = before ++ sub ++ rest := by
  induction s with
  | nil =>
    simp only [stringsContains, startsWith_iff]
    constructor
    · rintro ⟨rest, h⟩
      exact ⟨[], rest, by simpa using h⟩
    · rintro ⟨before, rest, h⟩
      have h1 := List.append_eq_nil.mp h.symm
      have h2 := List.append_eq_nil.mp h1.1
      exact ⟨[], by rw [h2.2]; rfl⟩
  | cons c s ih =>
    simp only [stringsContains, Bool.or_eq_true, startsWith_iff, ih]
    constructor
    · rintro (⟨rest, h⟩ | ⟨before, rest, h⟩)
      · exact ⟨[], rest, by simpa using h⟩
      · exact ⟨c :: before, rest, by simp [h]⟩
    · rintro ⟨before, rest, h⟩
      cases before with
      | nil => exact Or.inl ⟨rest, by simpa using h⟩
      | cons b before =>
        simp only [List.cons_append, List.cons.injEq] at h
        exact Or.inr ⟨before, rest, h.2⟩

theorem scanPatterns_iff (caseTable : Char → Char) (lowerQuery : List Char) (ps : List String) :
    scanPatterns caseTable lowerQuery ps = true ↔
      ∀ p ∈ ps, stringsContains lowerQuery (stringsToLower caseTable p.data) = false := by
  induction ps with
  | nil => simp [scanPatterns]
  | cons p ps ih =>
    simp only [scanPatterns, List.mem_cons, forall_eq_or_imp]
    by_cases h : stringsContains lowerQuery (stringsToLower caseTable p.data) = true
    · simp [h]
    · simp only [h, Bool.false_eq_true, if_false, ih]
      simp [h]

theorem containsLowered_iff (caseTable : Char → Char) (q p : List Char) :
    stringsContains (stringsToLower caseTable q) (stringsToLower caseTable p) = true ↔
      ContainsIgnoringCase caseTable q p := by
  rw [stringsContains_iff]
  unfold ContainsIgnoringCase stringsToLower
  constructor
  · rintro ⟨before, rest, h⟩
    obtain ⟨l1, l2, hq, h1, h2⟩ := List.map_eq_append_iff.mp h
    obtain ⟨l3, l4, hl1, h3, h4⟩ := List.map_eq_append_iff.mp h1
    exact ⟨l3, l4, l2, by rw [hq, hl1], h4⟩
  · rintro ⟨before, mid, rest, hq, hm⟩
    exact ⟨before.map (unicodeToLower caseTable), rest.map (unicodeToLower caseTable),
      by rw [hq, List.map_append, List.map_append, hm]⟩

/-! ## Lemmas on `float64` rounding -/

theorem roundHalfEven_intCast (n : Int) : roundHalfEven (n : ℚ) = n := by
  simp [roundHalfEven]

theorem roundHalfEven_le (q : ℚ) (K : Int) (h : q ≤ K) : roundHalfEven q ≤ K := by
  have hf : ⌊q⌋ ≤ K := by
    have := Int.floor_le_floor h
    simpa using this
  unfold roundHalfEven
  split
  · exact hf
  · rename_i h1
    have hlt : ⌊q⌋ < K := by
      rw [Int.floor_lt]
      rcases lt_or_eq_of_le h with h2 | h2
      · exact h2
      · exfalso
        apply h1
        rw [h2]
        simp
    split
    · omega
    · split
      · exact hf
      · omega

theorem roundHalfEven_ge (q : ℚ) : q - 1 / 2 ≤ roundHalfEven q := by
  have h1 := Int.floor_le q
  have h2 := Int.lt_floor_add_one q
  unfold roundHalfEven
  split
  · rename_i h; linarith
  · split
    · push_cast; linarith
    · rename_i h3 h4
      have : q - ⌊q⌋ = 1 / 2 := le_antisymm (not_lt.mp h4) (not_lt.mp h3)
      split
      · linarith
      · push_cast; linarith

theorem roundHalfEven_tie_even (f : Int) (hf : f % 2 = 0) :
    roundHalfEven ((f : ℚ) + 1 / 2) = f := by
  have hfl : ⌊(f : ℚ) + 1 / 2⌋ = f := by
    rw [Int.floor_eq_iff]
    constructor <;> linarith
  unfold roundHalfEven
  rw [hfl]
  have h1 : ¬ ((f : ℚ) + 1 / 2 - f < 1 / 2) := by
    have : (f : ℚ) + 1 / 2 - f = 1 / 2 := by ring
    rw [this]
    exact lt_irrefl _
  have h2 : ¬ ((1 : ℚ) / 2 < (f : ℚ) + 1 / 2 - f) := by
    have : (f : ℚ) + 1 / 2 - f = 1 / 2 := by ring
    rw [this]
    exact lt_irrefl _
  rw [if_neg h1, if_neg h2, if_pos hf]

theorem two_zpow_pos (e : Int) : (0 : ℚ) < 2 ^ e := zpow_pos (by norm_num) e

theorem log_spec (x : ℚ) (hx : 0 < x) :
    (2 : ℚ) ^ Int.log 2 x ≤ x ∧ x < (2 : ℚ) ^ (Int.log 2 x + 1) := by
  have h1 := Int.zpow_log_le_self (b := 2) (r := x) (by norm_num) hx
  have h2 := Int.lt_zpow_succ_log_self (b := 2) (by norm_num) x
  simp only [Nat.cast_ofNat] at h1 h2
  exact ⟨h1, h2⟩

theorem log_eq (x : ℚ) (e : Int) (hx : 0 < x) (h1 : (2 : ℚ) ^ e ≤ x) (h2 : x < (2 : ℚ) ^ (e + 1)) :
    Int.log 2 x = e := by
  have a : e ≤ Int.log 2 x := by
    apply (Int.zpow_le_iff_le_log (b := 2) (by norm_num) hx).mp
    simpa using h1
  have b : Int.log 2 x < e + 1 := by
    apply (Int.lt_zpow_iff_log_lt (b := 2) (by norm_num) hx).mp
    simpa using h2
  omega

/-- A positive number that is a whole multiple of its unit in the last place is a `float64`. -/
theorem roundFloat64Pos_exact (x : ℚ) (m : Int)
    (h : x / 2 ^ (Int.log 2 x - 52) = m) : roundFloat64Pos x = x := by
  unfold roundFloat64Pos
  rw [h, roundHalfEven_intCast, ← h]
  have := two_zpow_pos (Int.log 2 x - 52)
  field_simp

theorem zpow_unit (e : Int) : (2 : ℚ) ^ (e - 52) = 2 ^ e / 2 ^ (52 : Int) := by
  rw [zpow_sub₀ (by norm_num)]

theorem zpow_nonneg_cast (d : Int) (hd : 0 ≤ d) : ∃ n : Nat, (2 : ℚ) ^ d = (n : ℚ) := by
  refine ⟨2 ^ d.toNat, ?_⟩
  have hd2 : d = (d.toNat : Int) := (Int.toNat_of_nonneg hd).symm
  generalize d.toNat = n at hd2
  subst hd2
  rw [zpow_natCast]
  push_cast
  rfl

/-- Division by the unit in the last place `2 ^ (e - 52)` of an integer, for `e ≤ 52`. -/
theorem int_div_unit (k e : Int) (he : e ≤ 52) :
    ∃ m : Int, (k : ℚ) / 2 ^ (e - 52) = m := by
  obtain ⟨n, hn⟩ := zpow_nonneg_cast (52 - e) (by omega)
  refine ⟨k * n, ?_⟩
  have h1 : (2 : ℚ) ^ (e - 52) * 2 ^ (52 - e) = 1 := by
    rw [← zpow_add₀ (by norm_num)]
    simp
  have hp := two_zpow_pos (e - 52)
  rw [div_eq_iff hp.ne']
  push_cast
  rw [← hn, mul_assoc, mul_comm ((2 : ℚ) ^ (52 - e)), h1, mul_one]

theorem sub_half_mul (a u : ℚ) (hu : u ≠ 0) : (a / u - 1 / 2) * u = a - u / 2 := by
  field_simp
  ring

theorem log_cases (x : ℚ) (hx : 0 < x) (h53 : x ≤ 2 ^ (53 : Int)) :
    x = 2 ^ Int.log 2 x ∨ ((2 : ℚ) ^ Int.log 2 x < x ∧ Int.log 2 x ≤ 52) := by
  obtain ⟨h1, _⟩ := log_spec x hx
  rcases eq_or_lt_of_le h1 with h | h
  · exact Or.inl h.symm
  · right
    refine ⟨h, ?_⟩
    have h3 : (2 : ℚ) ^ Int.log 2 x < 2 ^ (53 : Int) := lt_of_lt_of_le h h53
    have := (zpow_lt_zpow_iff_right₀ (by norm_num : (1 : ℚ) < 2)).mp h3
    omega

theorem roundFloat64Pos_pow (x : ℚ) (h : x = 2 ^ Int.log 2 x) : roundFloat64Pos x = x := by
  apply roundFloat64Pos_exact x (2 ^ 52)
  have hp := two_zpow_pos (Int.log 2 x)
  rw [zpow_unit]
  rw [← h]
  have hx : x ≠ 0 := by rw [h]; exact hp.ne'
  field_simp
  norm_num

theorem roundFloat64Pos_int (n : Int) (h0 : 0 < n) (h53 : n ≤ 2 ^ 53) :
    roundFloat64Pos (n : ℚ) = n := by
  have hx : (0 : ℚ) < n := by exact_mod_cast h0
  have hle : (n : ℚ) ≤ 2 ^ (53 : Int) := by
    have : ((2 ^ 53 : Int) : ℚ) = 2 ^ (53 : Int) := by norm_num
    rw [← this]
    exact_mod_cast h53
  rcases log_cases (n : ℚ) hx hle with h | ⟨_, he⟩
  · exact roundFloat64Pos_pow _ h
  · obtain ⟨m, hm⟩ := int_div_unit n _ he
    exact roundFloat64Pos_exact _ m hm

/-- Integers from 0 to `2 ^ 53` convert to `float64` without rounding. -/
theorem float64OfInt_exact (n : Int) (h0 : 0 ≤ n) (h53 : n ≤ 2 ^ 53) :
    float64OfInt n = n := by
  unfold float64OfInt roundFloat64
  rcases eq_or_lt_of_le h0 with h | h
  · subst h
    simp
  · have hx : (0 : ℚ) < n := by exact_mod_cast h
    rw [if_neg hx.ne', if_neg (not_lt.mpr hx.le)]
    exact roundFloat64Pos_int n h h53

/-- Rounding the quotient of a positive integer up to `2 ^ 53` by a positive integer does not
move it across an integer. -/
theorem ceil_roundFloat64Pos_div (t l : Int) (ht : 0 < t) (h53 : t ≤ 2 ^ 53) (hl1 : 1 ≤ l) :
    ⌈roundFloat64Pos ((t : ℚ) / l)⌉ = ⌈(t : ℚ) / l⌉ := by
  have htq : (0 : ℚ) < t := by exact_mod_cast ht
  have hlq : (1 : ℚ) ≤ l := by exact_mod_cast hl1
  have hlpos : (0 : ℚ) < l := by linarith
  have h53q : (t : ℚ) ≤ 2 ^ (53 : Int) := by
    have : ((2 ^ 53 : Int) : ℚ) = 2 ^ (53 : Int) := by norm_num
    rw [← this]
    exact_mod_cast h53
  have hx : (0 : ℚ) < (t : ℚ) / l := div_pos htq hlpos
  have hxt : (t : ℚ) / l ≤ t := div_le_self htq.le hlq
  obtain ⟨hk1, hk2⟩ := Int.ceil_eq_iff.mp (rfl : ⌈(t : ℚ) / l⌉ = ⌈(t : ℚ) / l⌉)
  rcases log_cases ((t : ℚ) / l) hx (hxt.trans h53q) with h | ⟨hlt, he⟩
  · rw [roundFloat64Pos_pow _ h]
  · rw [Int.ceil_eq_iff]
    have hu := two_zpow_pos (Int.log 2 ((t : ℚ) / l) - 52)
    constructor
    · -- the rounded quotient stays above the integer below the exact quotient
      have hr := roundHalfEven_ge ((t : ℚ) / l / 2 ^ (Int.log 2 ((t : ℚ) / l) - 52))
      have hy : (t : ℚ) / l - 2 ^ (Int.log 2 ((t : ℚ) / l) - 52) / 2 ≤
          roundFloat64Pos ((t : ℚ) / l) := by
        unfold roundFloat64Pos
        have := mul_le_mul_of_nonneg_right hr hu.le
        rw [sub_half_mul _ _ hu.ne'] at this
        exact this
      have hulp : (2 : ℚ) ^ (Int.log 2 ((t : ℚ) / l) - 52) / 2 < 1 / l := by
        rw [zpow_unit]
        have h2 : (2 : ℚ) ^ Int.log 2 ((t : ℚ) / l) / 2 ^ (52 : Int) / 2 <
            (t : ℚ) / l / 2 ^ (52 : Int) / 2 := by
          apply div_lt_div_of_pos_right _ (by norm_num)
          exact div_lt_div_of_pos_right hlt (by norm_num)
        have h3 : (t : ℚ) / l / 2 ^ (52 : Int) / 2 ≤ 1 / l := by
          rw [div_div, div_div, div_le_div_iff₀ (by positivity) hlpos]
          have : (2 : ℚ) ^ (52 : Int) * 2 = 2 ^ (53 : Int) := by norm_num
          nlinarith
        exact lt_of_lt_of_le h2 h3
      have hstep : ((⌈(t : ℚ) / l⌉ : Int) : ℚ) - 1 ≤ (t : ℚ) / l - 1 / l := by
        have hk : (⌈(t : ℚ) / l⌉ - 1) * l < t := by
          have : (((⌈(t : ℚ) / l⌉ - 1 : Int) : ℚ)) * l < t := by
            push_cast
            rwa [← lt_div_iff₀ hlpos]
          exact_mod_cast this
        have hk3 : (⌈(t : ℚ) / l⌉ - 1) * l ≤ t - 1 := by omega
        have hk4 : (((⌈(t : ℚ) / l⌉ : Int) : ℚ) - 1) * l ≤ (t : ℚ) - 1 := by
          exact_mod_cast hk3
        rw [← sub_div, le_div_iff₀ hlpos]
        exact hk4
      linarith
    · -- the rounded quotient does not pass the integer above the exact quotient
      obtain ⟨K, hK⟩ := int_div_unit ⌈(t : ℚ) / l⌉ _ he
      have hq : (t : ℚ) / l / 2 ^ (Int.log 2 ((t : ℚ) / l) - 52) ≤ K := by
        rw [← hK]
        exact div_le_div_of_nonneg_right hk2 hu.le
      have hr := roundHalfEven_le _ K hq
      have hr2 : ((roundHalfEven ((t : ℚ) / l / 2 ^ (Int.log 2 ((t : ℚ) / l) - 52)) : Int) : ℚ)
          ≤ K := by exact_mod_cast hr
      unfold roundFloat64Pos
      have := mul_le_mul_of_nonneg_right hr2 hu.le
      rw [← hK, div_mul_cancel₀ _ hu.ne'] at this
      exact this

/-- For totals from 0 to `2 ^ 53` the `float64` computation of the page count is exact. -/
theorem totalPagesOf_exact (total limit : Int) (h0 : 0 ≤ total) (h53 : total ≤ 2 ^ 53)
    (hl1 : 1 ≤ limit) (hl : limit ≤ 100) :
    totalPagesOf total limit = ⌈(total : ℚ) / limit⌉ := by
  have hlq : (0 : ℚ) < limit := by exact_mod_cast (by omega : (0 : Int) < limit)
  unfold totalPagesOf float64Div mathCeil
  rw [float64OfInt_exact total h0 h53, float64OfInt_exact limit (by omega) (by omega)]
  have hc : ⌈roundFloat64 ((total : ℚ) / limit)⌉ = ⌈(total : ℚ) / limit⌉ := by
    unfold roundFloat64
    rcases eq_or_lt_of_le h0 with h | h
    · subst h
      simp
    · have hx : (0 : ℚ) < (total : ℚ) / limit := div_pos (by exact_mod_cast h) hlq
      rw [if_neg hx.ne', if_neg (not_lt.mpr hx.le)]
      exact ceil_roundFloat64Pos_div total limit h h53 hl1
  rw [hc]
  have hnn : (0 : ℚ) ≤ ((⌈(total : ℚ) / limit⌉ : Int) : ℚ) := by
    have : (0 : Int) ≤ ⌈(total : ℚ) / limit⌉ := by
      apply Int.ceil_nonneg
      exact div_nonneg (by exact_mod_cast h0) hlq.le
    exact_mod_cast this
  simp [intOfFloat64, hnn]

theorem ceil_div_least (total limit : Int) (hl1 : 1 ≤ limit) :
    total ≤ ⌈(total : ℚ) / limit⌉ * limit ∧
      ∀ k : Int, total ≤ k * limit → ⌈(total : ℚ) / limit⌉ ≤ k := by
  have hlq : (0 : ℚ) < limit := by exact_mod_cast (by omega : (0 : Int) < limit)
  constructor
  · have h := Int.le_ceil ((total : ℚ) / limit)
    rw [div_le_iff₀ hlq] at h
    exact_mod_cast h
  · intro k hk
    rw [Int.ceil_le, div_le_iff₀ hlq]
    exact_mod_cast hk

/-- The integer `2 ^ 53 + 1` is not a `float64`: the conversion rounds it to `2 ^ 53`. -/
theorem float64OfInt_odd_above : float64OfInt 9007199254740993 = 9007199254740992 := by
  have hlog : Int.log 2 ((9007199254740993 : Int) : ℚ) = 53 :=
    log_eq _ 53 (by norm_num) (by norm_num) (by norm_num)
  have hx : ((9007199254740993 : Int) : ℚ) / 2 ^ ((53 : Int) - 52) =
      ((4503599627370496 : Int) : ℚ) + 1 / 2 := by norm_num
  unfold float64OfInt roundFloat64
  rw [if_neg (by norm_num), if_neg (by norm_num)]
  unfold roundFloat64Pos
  rw [hlog, hx, roundHalfEven_tie_even _ (by decide)]
  norm_num

theorem totalPagesOf_odd_above : totalPagesOf 9007199254740993 1 = 9007199254740992 := by
  unfold totalPagesOf float64Div mathCeil
  rw [float64OfInt_odd_above, float64OfInt_exact 1 (by decide) (by decide)]
  have h : roundFloat64 ((9007199254740992 : ℚ) / ((1 : Int) : ℚ)) = ((9007199254740992 : Int) : ℚ) := by
    have := float64OfInt_exact 9007199254740992 (by decide) (by decide)
    unfold float64OfInt at this
    rw [← this]
    norm_num
  rw [h]
  simp [intOfFloat64]

/-! ## Lemmas on the user statistics -/

/-- What `GetUserStats` computes on a store: the page of at most 1000000 users it reads and the
counts taken over that page. -/
theorem getUserStats_page (ilike : String → String → Bool) (s : Store) (env : StatsEnv) :
    ∃ users, userRepository.GetUsers ilike none none s 1 1000000 "" =
        .ok (users, (s.users.length : Int)) ∧
      users.length = min 1000000 s.users.length ∧ (∀ u ∈ users, u ∈ s.users) ∧
      UserService.GetUserStats (userRepository.GetUsers ilike none none s) env =
        .ok { total_users := users.length,
              users_today := (users.filter (fun user => decide (env.today < user.CreatedAt))).length,
              users_this_week :=
                (users.filter (fun user => decide (env.thisWeek < user.CreatedAt))).length,
              users_this_month :=
                (users.filter (fun user => decide (env.thisMonth < user.CreatedAt))).length,
              timestamp := env.timestamp } := by
  refine ⟨((s.users.insertionSort newerFirst).drop 0).take 1000000, ?_, ?_, ?_, ?_⟩
  · simp [userRepository.GetUsers]
  · simp [List.length_take, List.length_insertionSort]
  · intro u hu
    have h1 := List.mem_of_mem_take hu
    simp only [List.drop_zero] at h1
    exact (List.perm_insertionSort newerFirst s.users).subset h1
  · simp [UserService.GetUserStats, userRepository.GetUsers]

theorem crowdOf_users (n : Nat) :
    (crowdOf n).users.length = n ∧ ∀ u ∈ (crowdOf n).users, u.CreatedAt = 1 := by
  constructor
  · simp [crowdOf]
  · intro u hu
    simp only [crowdOf, List.mem_map] at hu
    obtain ⟨i, _, rfl⟩ := hu
    rfl

/-! ## The claims, continued -/

/-- Claim C11: for every draw `n` below 900000, `GenerateOTP` returns without error a string of
exactly six characters `0`-`9` whose value is `n + 100000`; so the code lies between 100000 and
999999, different draws give different codes, and every value from 100000 to 999999 is the code
of exactly one draw. -/
theorem generateOTP_six_digits (n : Nat) (h : n < 900000) :
    ∃ code, GenerateOTP (.ok n) = .ok code ∧ code.data.length = 6 ∧
      code.data.all isAsciiDigit = true ∧ decimalValue code.data = n + 100000 ∧
      100000 ≤ decimalValue code.data ∧ decimalValue code.data ≤ 999999 ∧
      (∀ k, k < 900000 → GenerateOTP (.ok k) = GenerateOTP (.ok n) → k = n) ∧
      (∀ v, 100000 ≤ v → v ≤ 999999 →
        ∃ k, k < 900000 ∧
          (∃ c, GenerateOTP (.ok k) = .ok c ∧ decimalValue c.data = v) ∧
          ∀ j, j < 900000 →
            (∃ c, GenerateOTP (.ok j) = .ok c ∧ decimalValue c.data = v) → j = k) := by
  have hv := sprintf06d_value (n + 100000) (by omega) (by omega)
  have val : ∀ a c, a < 900000 → GenerateOTP (.ok a) = .ok c →
      decimalValue c.data = a + 100000 := by
    intro a c ha hc
    simp only [GenerateOTP, Except.ok.injEq] at hc
    rw [← hc]
    exact (sprintf06d_value (a + 100000) (by omega) (by omega)).2.2
  refine ⟨sprintf06d (n + 100000), rfl, hv.1, hv.2.1, hv.2.2, ?_, ?_, ?_, ?_⟩
  · rw [hv.2.2]; omega
  · rw [hv.2.2]; omega
  · intro k hk hkn
    have h1 := val k (sprintf06d (k + 100000)) hk rfl
    have h2 := val n (sprintf06d (k + 100000)) h hkn.symm
    omega
  · intro v h1 h2
    refine ⟨v - 100000, by omega, ⟨sprintf06d (v - 100000 + 100000), rfl, ?_⟩, ?_⟩
    · have := val (v - 100000) _ (by omega) rfl
      omega
    · rintro j hj ⟨c, hc, hcv⟩
      have := val j c hj hc
      omega

/-- Witness of C11: the draw 23456. -/
theorem generateOTP_six_digits_witness :
    ∃ code, GenerateOTP (.ok 23456) = .ok code ∧ code.data.length = 6 ∧
      code.data.all isAsciiDigit = true ∧ decimalValue code.data = 23456 + 100000 ∧
      100000 ≤ decimalValue code.data ∧ decimalValue code.data ≤ 999999 ∧
      (∀ k, k < 900000 → GenerateOTP (.ok k) = GenerateOTP (.ok 23456) → k = 23456) ∧
      (∀ v, 100000 ≤ v → v ≤ 999999 →
        ∃ k, k < 900000 ∧
          (∃ c, GenerateOTP (.ok k) = .ok c ∧ decimalValue c.data = v) ∧
          ∀ j, j < 900000 →
            (∃ c, GenerateOTP (.ok j) = .ok c ∧ decimalValue c.data = v) → j = k) :=
  generateOTP_six_digits 23456 (by decide)

/-- Claim C12, evaluated: `SendOTP` for the malformed phone number `123` and `VerifyOTP` for the
malformed code `12a456` return plain `fmt.Errorf` errors; `HandleError` turns them into
`INTERNAL_SERVER_ERROR` with status 500, not into `ErrValidationFailed` (status 400). -/
theorem validation_failure_becomes_internal_error :
    ValidatePhoneNumber "123" ≠ [] ∧
    (OTPService.SendOTP LoadConfig (demoSend 1 0) seedStore "123").2 =
      some (.plain "validation failed: phone_number: phone number must be at least 10 digits") ∧
    HandleError (.plain "validation failed: phone_number: phone number must be at least 10 digits")
      = { Code := "INTERNAL_SERVER_ERROR", Message := "Internal server error", HTTPCode := 500,
          Details := "validation failed: phone_number: phone number must be at least 10 digits" } ∧
    ValidateOTPCode noFurtherDigits "12a456" ≠ [] ∧
    (OTPService.VerifyOTP noFurtherDigits (demoVerify 0) seedStore demoPhone "12a456").2 =
      .error (.plain "validation failed: code: OTP code must contain only digits") ∧
    (HandleError (.plain "validation failed: code: OTP code must contain only digits")).Code
      = "INTERNAL_SERVER_ERROR" ∧
    (HandleError (.plain "validation failed: code: OTP code must contain only digits")).HTTPCode
      = 500 ∧
    ErrValidationFailed.HTTPCode = 400 := by
  decide

/-- Counterexample to C13: an `AppError` built with `NewAppError` passes through `HandleError`
unchanged, and its message is not one of the catalogue. -/
theorem handleError_keeps_custom_message :
    (HandleError (.app teapot)).Message
      ∉ catalogueMessages := by
  decide

/-- Claim C13, amended: `HandleError` returns an `AppError` unchanged; any other error becomes
`INTERNAL_SERVER_ERROR` with status 500, the fixed message `Internal server error` and the
original text in `Details` only; `HandleError` is idempotent; and the message of the result is
one of the catalogue whenever the error is not an `AppError` or is an `AppError` that carries a
catalogue message. -/
theorem handleError_spec (e : GoError) :
    (∀ a, e = .app a → HandleError e = a) ∧
    (∀ text, e = .plain text →
      HandleError e = { Code := "INTERNAL_SERVER_ERROR", Message := "Internal server error",
                        HTTPCode := 500, Details := text }) ∧
    HandleError (.app (HandleError e)) = HandleError e ∧
    ((∀ a, e = .app a → a.Message ∈ catalogueMessages) →
      (HandleError e).Message ∈ catalogueMessages) := by
  cases e with
  | app a =>
    refine ⟨?_, ?_, rfl, ?_⟩
    · intro b hb
      cases hb
      rfl
    · intro text ht
      cases ht
    · intro h
      exact h a rfl
  | plain t =>
    refine ⟨?_, ?_, rfl, ?_⟩
    · intro b hb
      cases hb
    · intro text ht
      cases ht
      rfl
    · intro _
      simp only [HandleError, IsAppError, AppError.WithDetails]
      decide

/-- Witness of C13: the sentinel `ErrInvalidOTP`. -/
theorem handleError_spec_witness :
    (HandleError (.app ErrInvalidOTP)).Message ∈ catalogueMessages :=
  (handleError_spec (.app ErrInvalidOTP)).2.2.2 (by
    intro a ha
    cases ha
    decide)

/-- Claim C14: a `SendOTP` call that returns `nil` appends exactly one record to `otps`, with the
given phone number, `used = false` and expiry equal to the clock reading of the call plus
`ExpiryTime`; the records stored before are all kept as they were. -/
theorem sendOTP_adds_one_record (cfg : OTPConfig) (env : SendEnv) (s s1 : Store)
    (phone : String)
    (h : OTPService.SendOTP cfg env s phone = (s1, none)) :
    ∃ o : OTP, s1.otps = s.otps ++ [o] ∧ o.PhoneNumber = phone ∧ o.IsUsed = false ∧
      o.ExpiresAt = env.expiryNow + cfg.ExpiryTime ∧ s1.users = s.users := by
  unfold OTPService.SendOTP at h
  simp only at h
  split at h
  · simp at h
  · split at h
    · simp at h
    · split at h
      · simp at h
      · rename_i code hcode
        split at h
        · simp at h
        · rename_i s2 hcreate
          have hs2 := otpCreate_ok _ _ _ _ hcreate
          split at h
          · simp only [Prod.mk.injEq, and_true] at h
            subst h
            exact ⟨_, by rw [hs2], rfl, rfl, rfl, by rw [hs2]⟩
          · rename_i s3 hatt
            have hs3 := attemptCreate_ok _ _ _ _ hatt
            simp only [Prod.mk.injEq, and_true] at h
            subst h
            exact ⟨_, by rw [hs3, hs2], rfl, rfl, rfl, by rw [hs3, hs2]⟩

/-- Witness of C14: the first send on `seedStore`. -/
theorem sendOTP_adds_one_record_witness :
    ∃ o : OTP, sentStore.otps = seedStore.otps ++ [o] ∧ o.PhoneNumber = demoPhone ∧
      o.IsUsed = false ∧ o.ExpiresAt = (demoSend 1 0).expiryNow + LoadConfig.ExpiryTime ∧
      sentStore.users = seedStore.users :=
  sendOTP_adds_one_record LoadConfig (demoSend 1 0) seedStore sentStore demoPhone (by decide)

/-- Claim C15: for a valid phone number that is not rate-limited, when the code is drawn, the
OTP record is persisted and the append of the attempt row fails, `SendOTP` still returns `nil`,
the persisted record is in the store, and the attempt log is as it was. -/
theorem sendOTP_attempt_failure_ignored (cfg : OTPConfig) (env : SendEnv) (s s1 : Store)
    (phone code : String) (e : GoError)
    (hv : ValidatePhoneNumber phone = [])
    (hrate : OTPService.checkRateLimit cfg env.checkNow env.countFault s phone = none)
    (hdraw : GenerateOTP env.draw = .ok code)
    (hotp : otpRepository.Create env.otpInsert s
      { ID := 0, PhoneNumber := phone, Code := code, CreatedAt := 0,
        ExpiresAt := env.expiryNow + cfg.ExpiryTime, IsUsed := false } = .ok s1)
    (hatt : otpAttemptRepository.Create env.attemptInsert s1
      { ID := 0, PhoneNumber := phone, AttemptTime := 0 } = .error e) :
    OTPService.SendOTP cfg env s phone = (s1, none) ∧
    (⟨env.otpInsert.id, phone, code, env.otpInsert.now, env.expiryNow + cfg.ExpiryTime, false⟩
      : OTP) ∈ s1.otps ∧
    s1.otp_attempts = s.otp_attempts := by
  have hs1 := otpCreate_ok _ _ _ _ hotp
  refine ⟨?_, ?_, ?_⟩
  · simp [OTPService.SendOTP, hasErrors_nil hv, hrate, hdraw, hotp, hatt]
  · rw [hs1]
    simp
  · rw [hs1]

/-- Witness of C15: the driver fails on the insert into `otp_attempts`. -/
theorem sendOTP_attempt_failure_ignored_witness :
    OTPService.SendOTP LoadConfig attemptDown seedStore demoPhone = (unloggedStore, none) ∧
    (⟨attemptDown.otpInsert.id, demoPhone, "123456", attemptDown.otpInsert.now,
        attemptDown.expiryNow + LoadConfig.ExpiryTime, false⟩ : OTP) ∈ unloggedStore.otps ∧
    unloggedStore.otp_attempts = seedStore.otp_attempts :=
  sendOTP_attempt_failure_ignored LoadConfig attemptDown seedStore unloggedStore demoPhone
    "123456" (.plain "failed to create OTP attempt: connection reset")
    (by decide) (by decide) (by decide) (by decide) (by decide)

/-- Claim C17: `IsValidSearchQuery(q)` is true if and only if the length `len(q)` is between 2
and 50 inclusive and `q` contains, under case-insensitive substring matching, none of the eight
patterns of the deny list. -/
theorem isValidSearchQuery_iff (caseTable : Char → Char) (q : String) :
    IsValidSearchQuery caseTable q = true ↔
      (2 ≤ goLen q.data ∧ goLen q.data ≤ 50 ∧
        ∀ p ∈ maliciousPatterns, ¬ ContainsIgnoringCase caseTable q.data p.data) := by
  unfold IsValidSearchQuery
  by_cases h1 : goLen q.data < 2
  · simp only [h1, if_true]
    constructor
    · intro h; cases h
    · rintro ⟨h2, _⟩; omega
  · by_cases h2 : goLen q.data > 50
    · simp only [h1, h2, if_true, if_false]
      constructor
      · intro h; cases h
      · rintro ⟨_, h3, _⟩; omega
    · simp only [h1, h2, if_false, scanPatterns_iff]
      constructor
      · intro h
        refine ⟨by omega, by omega, ?_⟩
        intro p hp hc
        have := h p hp
        rw [(containsLowered_iff caseTable q.data p.data).mpr hc] at this
        cases this
      · rintro ⟨_, _, h⟩ p hp
        cases hc : stringsContains (stringsToLower caseTable q.data)
          (stringsToLower caseTable p.data) with
        | false => rfl
        | true => exact absurd ((containsLowered_iff caseTable q.data p.data).mp hc) (h p hp)

/-- Counterexample to C18: for the total `2 ^ 53 + 1` and limit 1 the response carries
`TotalPages = 2 ^ 53`, one page short. -/
theorem totalPages_inexact_above_2_53 :
    (UserService.GetUsers id (fun _ => "") (totalOnly 9007199254740993) 1 1 "").2 =
      .ok { Users := [], Total := 9007199254740993, Page := 1, Limit := 1,
            TotalPages := 9007199254740992 } ∧
    (9007199254740992 : Int) * 1 < 9007199254740993 := by
  constructor
  · have hv : (ValidatePaginationParams 1 1).HasErrors = false := by decide
    have hs : (decide (("" : String) ≠ "") && !IsValidSearchQuery id "") = false := by decide
    unfold UserService.GetUsers
    simp only [hv, hs, Bool.false_eq_true, if_false, totalOnly, totalPagesOf_odd_above]
    rfl
  · decide

/-- Claim C18, amended: for every total from 0 to `2 ^ 53` reported by the repository and every
limit from 1 to 100, the `TotalPages` of the response of `GetUsers` is `ceil(total / limit)`
exactly, the least `k` with `k * limit >= total` (0 for total 0), and the response carries
`Total`, `Page` and `Limit` unchanged. -/
theorem getUsers_totalPages (caseTable : Char → Char) (formatRFC3339 : Time → String)
    (repo : UsersQuery) (page limit total : Int) (search : String) (users : List User)
    (hp : 1 ≤ page) (hl1 : 1 ≤ limit) (hl : limit ≤ 100)
    (hs : search = "" ∨ IsValidSearchQuery caseTable search = true)
    (hr : repo page limit search = .ok (users, total))
    (h0 : 0 ≤ total) (h53 : total ≤ 2 ^ 53) :
    ∃ resp, (UserService.GetUsers caseTable formatRFC3339 repo page limit search).2 = .ok resp ∧
      resp.Total = total ∧ resp.Page = page ∧ resp.Limit = limit ∧
      resp.TotalPages = ⌈(total : ℚ) / limit⌉ ∧
      total ≤ resp.TotalPages * limit ∧
      (∀ k : Int, total ≤ k * limit → resp.TotalPages ≤ k) ∧
      (total = 0 → resp.TotalPages = 0) := by
  have hv : (ValidatePaginationParams page limit).HasErrors = false := by
    apply hasErrors_nil
    unfold ValidatePaginationParams
    simp [not_lt.mpr hp, not_lt.mpr hl1, not_lt.mpr hl]
  have hs2 : (search ≠ "" && !IsValidSearchQuery caseTable search) = false := by
    rcases hs with h | h
    · simp [h]
    · simp [h]
  have hex := totalPagesOf_exact total limit h0 h53 hl1 hl
  have hleast := ceil_div_least total limit hl1
  refine ⟨{ Users := users.map (fun user =>
              { ID := user.ID, PhoneNumber := user.PhoneNumber,
                CreatedAt := formatRFC3339 user.CreatedAt }),
            Total := total, Page := page, Limit := limit,
            TotalPages := totalPagesOf total limit }, ?_, rfl, rfl, rfl, hex, ?_, ?_, ?_⟩
  · unfold UserService.GetUsers
    simp only [hv, hs2, Bool.false_eq_true, if_false, hr]
  · simp only [hex]
    exact hleast.1
  · intro k hk
    simp only [hex]
    exact hleast.2 k hk
  · intro ht
    show totalPagesOf total limit = 0
    rw [hex, ht]
    simp

/-- Witness of C18: total 25 with limit 10. -/
theorem getUsers_totalPages_witness :
    ∃ resp, (UserService.GetUsers id (fun _ => "") (totalOnly 25) 1 10 "").2 = .ok resp ∧
      resp.Total = 25 ∧ resp.Page = 1 ∧ resp.Limit = 10 ∧
      resp.TotalPages = ⌈((25 : Int) : ℚ) / (10 : Int)⌉ ∧
      25 ≤ resp.TotalPages * 10 ∧
      (∀ k : Int, 25 ≤ k * 10 → resp.TotalPages ≤ k) ∧
      ((25 : Int) = 0 → resp.TotalPages = 0) :=
  getUsers_totalPages id (fun _ => "") (totalOnly 25) 1 10 25 "" []
    (by decide) (by decide) (by decide) (Or.inl rfl) rfl (by decide) (by decide)

/-- Claim C19, evaluated: on a store of 1000001 users, all created after midnight,
`GetUserStats` reports `total_users = 1000000` and `users_today = 1000000`. -/
theorem getUserStats_drops_users :
    crowdStore.users.length = 1000001 ∧
    (∀ u ∈ crowdStore.users, statsEnv.today < u.CreatedAt) ∧
    ∃ stats, UserService.GetUserStats
        (userRepository.GetUsers (fun _ _ => true) none none crowdStore) statsEnv = .ok stats ∧
      stats.total_users = 1000000 ∧ stats.users_today = 1000000 := by
  have hlen : crowdStore.users.length = 1000001 := (crowdOf_users 1000001).1
  have hall : ∀ u ∈ crowdStore.users, statsEnv.today < u.CreatedAt := by
    intro u hu
    rw [(crowdOf_users 1000001).2 u hu]
    decide
  obtain ⟨users, _, hl, hmem, hstats⟩ := getUserStats_page (fun _ _ => true) crowdStore statsEnv
  have hl2 : users.length = 1000000 := by
    rw [hl, hlen]
    decide
  refine ⟨hlen, hall, _, hstats, ?_, ?_⟩
  · simp [hl2]
  · have : users.filter (fun user => decide (statsEnv.today < user.CreatedAt)) = users := by
      rw [List.filter_eq_self]
      intro u hu
      simpa using hall u (hmem u hu)
    simp [this, hl2]

/-- Claim C20, evaluated: a phone number with a leading blank passes `ValidatePhoneNumber`,
does not match the phone pattern, and is stored as given, in the OTP record persisted by
`SendOTP` and in the user created by `VerifyOTP`. -/
theorem padded_phone_is_stored :
    ValidatePhoneNumber paddedPhone = [] ∧
    phoneRegexMatch paddedPhone.data = false ∧
    OTPService.SendOTP LoadConfig (demoSend 1 0) seedStore paddedPhone = (paddedStore, none) ∧
    OTPService.VerifyOTP noFurtherDigits (demoVerify minute) paddedStore paddedPhone "123456" =
      ({ otps := [⟨1, paddedPhone, "123456", 0, 2 * minute, true⟩],
         otp_attempts := paddedStore.otp_attempts,
         users := [⟨7, paddedPhone, minute, minute⟩] },
       .ok ⟨7, paddedPhone, minute, minute⟩) := by
  decide

/-! ## Lemmas on the random string and on sequences of calls -/

theorem fillBytes_ok (draw : Nat → Option Nat) (count : Nat) :
    ∀ i, (∀ j, i ≤ j → j < i + count → ∃ k, draw j = some k ∧ k < 62) →
      ∃ l, fillBytes draw i count = some l ∧ l.length = count ∧
        ∀ c ∈ l, c ∈ charset.data := by
  induction count with
  | zero => intro i _; exact ⟨[], rfl, rfl, by simp⟩
  | succ n ih =>
    intro i h
    obtain ⟨k, hk, hk62⟩ := h i (Nat.le_refl i) (by omega)
    obtain ⟨l, hl, hlen, hmem⟩ := ih (i + 1) (fun j h1 h2 => h j (by omega) (by omega))
    have hlt : k < charset.data.length := by
      have : charset.data.length = 62 := by decide
      omega
    refine ⟨charset.data[k] :: l, ?_, by simp [hlen], ?_⟩
    · simp [fillBytes, hk, List.getElem?_eq_getElem hlt, hl]
    · intro c hc
      rcases List.mem_cons.mp hc with rfl | hc
      · exact List.getElem_mem hlt
      · exact hmem c hc

theorem charset_ascii : ∀ c ∈ charset.data, c.toNat ≤ 127 := by decide

/-- What a `SendOTP` call does to the store: nothing, or one new unused record and at most one
new attempt row, the latter only after the rate-limit check has passed. -/
theorem sendOTP_effect (cfg : OTPConfig) (env : SendEnv) (s : Store) (phone : String) :
    (OTPService.SendOTP cfg env s phone).1 = s ∨
    ∃ code,
      ((recentAttempts s phone (env.checkNow + -cfg.RateWindow)).length : Int)
        < cfg.MaxAttempts ∧
      (OTPService.SendOTP cfg env s phone).1.otps =
        s.otps ++ [⟨env.otpInsert.id, phone, code, env.otpInsert.now,
                     env.expiryNow + cfg.ExpiryTime, false⟩] ∧
      (OTPService.SendOTP cfg env s phone).1.users = s.users ∧
      ((OTPService.SendOTP cfg env s phone).1.otp_attempts = s.otp_attempts ∨
        (OTPService.SendOTP cfg env s phone).1.otp_attempts =
          s.otp_attempts ++ [⟨env.attemptInsert.id, phone, env.attemptInsert.now⟩]) := by
  unfold OTPService.SendOTP
  simp only
  split
  · exact Or.inl rfl
  · split
    · exact Or.inl rfl
    · rename_i hrate
      have hcount : ((recentAttempts s phone (env.checkNow + -cfg.RateWindow)).length : Int)
          < cfg.MaxAttempts := by
        unfold OTPService.checkRateLimit otpAttemptRepository.CountRecentAttempts at hrate
        cases hf : env.countFault with
        | some t => rw [hf] at hrate; simp at hrate
        | none =>
          rw [hf] at hrate
          simp only at hrate
          by_contra hc
          rw [if_pos (not_lt.mp hc)] at hrate
          simp at hrate
      split
      · exact Or.inl rfl
      · rename_i code _
        split
        · exact Or.inl rfl
        · rename_i s1 hcreate
          have hs1 := otpCreate_ok _ _ _ _ hcreate
          right
          refine ⟨code, hcount, ?_⟩
          split
          · exact ⟨by rw [hs1], by rw [hs1], Or.inl (by rw [hs1])⟩
          · rename_i s2 hatt
            have hs2 := attemptCreate_ok _ _ _ _ hatt
            exact ⟨by rw [hs2, hs1], by rw [hs2, hs1], Or.inr (by rw [hs2, hs1])⟩

/-- What a `VerifyOTP` call does to the store, by the way it ends. -/
theorem verifyOTP_effect (digitTable : Char → Bool)
    (env : VerifyEnv) (s : Store) (phone code : String) :
    (OTPService.VerifyOTP digitTable env s phone code).1 = s ∨
    ∃ otp s2, otpRepository.GetValidOTP env.findFault env.now s phone code = .ok otp ∧
      otpRepository.MarkAsUsed env.markFault s otp.ID = .ok s2 ∧
      (((OTPService.VerifyOTP digitTable env s phone code).1 = s2 ∧
          ((∃ u, (OTPService.VerifyOTP digitTable env s phone code).2 = .ok u) ∨
            ∃ text, (OTPService.VerifyOTP digitTable env s phone code).2 = .error (.plain text))) ∨
       (∃ u, (OTPService.VerifyOTP digitTable env s phone code).1 = { s2 with users := s2.users ++ [u] } ∧
          (OTPService.VerifyOTP digitTable env s phone code).2 = .ok u)) := by
  by_cases hv1 : ValidatePhoneNumber phone = []
  swap
  · obtain ⟨t, ht, _⟩ := verifyOTP_invalid_input_error env s phone code (Or.inl hv1)
    exact Or.inl (by rw [ht])
  by_cases hv2 : ValidateOTPCode digitTable code = []
  swap
  · obtain ⟨t, ht, _⟩ := verifyOTP_invalid_input_error env s phone code (Or.inr hv2)
    exact Or.inl (by rw [ht])
  unfold OTPService.VerifyOTP
  rcases verifyOTPAmong_cases Interleaving.none env s phone code hv1 hv2 with
    ⟨e, _, hres⟩ | ⟨otp, hg, h2⟩
  · exact Or.inl (by rw [hres])
  · simp only [none_afterLookup, none_afterMark, none_afterUserLookup] at h2
    rcases h2 with ⟨e, _, hres⟩ | ⟨s2, hm, h3⟩
    · exact Or.inl (by rw [hres])
    · right
      refine ⟨otp, s2, hg, hm, ?_⟩
      rcases h3 with ⟨u, _, hres⟩ | ⟨e, hu, hne, hres⟩ | ⟨_, ⟨e, hc, hres⟩ | ⟨s5, u, hc, hres⟩⟩
      · exact Or.inl ⟨by rw [hres], Or.inl ⟨u, by rw [hres]⟩⟩
      · rcases getByPhone_error _ _ _ _ hu with ⟨t, rfl⟩ | ⟨rfl, _⟩
        · exact Or.inl ⟨by rw [hres], Or.inr ⟨t, by rw [hres]⟩⟩
        · exact absurd rfl hne
      · obtain ⟨t, rfl⟩ := userCreate_error _ _ _ _ hc
        exact Or.inl ⟨by rw [hres], Or.inr ⟨_, by rw [hres]⟩⟩
      · right
        exact ⟨u, by rw [hres, (userCreate_ok _ _ _ _ _ hc).2.1], by rw [hres]⟩

/-- The OTP records after a `VerifyOTP` call: untouched, or the records of one identifier
marked used; the attempt log is untouched. -/
theorem verifyOTP_otps (digitTable : Char → Bool)
    (env : VerifyEnv) (s : Store) (phone code : String) :
    ((OTPService.VerifyOTP digitTable env s phone code).1.otps = s.otps ∨
      ∃ id, (OTPService.VerifyOTP digitTable env s phone code).1.otps =
        s.otps.map (fun o => if o.ID == id then { o with IsUsed := true } else o)) ∧
    (OTPService.VerifyOTP digitTable env s phone code).1.otp_attempts = s.otp_attempts := by
  rcases verifyOTP_effect digitTable env s phone code with h | ⟨otp, s2, _, hm, h | ⟨u, h, _⟩⟩
  · rw [h]
    exact ⟨Or.inl rfl, rfl⟩
  · have hs2 := markAsUsed_ok _ _ _ _ hm
    rw [h.1, hs2]
    exact ⟨Or.inr ⟨otp.ID, rfl⟩, rfl⟩
  · have hs2 := markAsUsed_ok _ _ _ _ hm
    rw [h, hs2]
    exact ⟨Or.inr ⟨otp.ID, rfl⟩, rfl⟩

theorem length_filter_mono {α : Type} (p q : α → Bool) (l : List α)
    (h : ∀ x ∈ l, p x = true → q x = true) : (l.filter p).length ≤ (l.filter q).length := by
  induction l with
  | nil => simp
  | cons a t ih =>
    have iht := ih (fun x hx => h x (List.mem_cons_of_mem _ hx))
    by_cases hp : p a = true
    · have hq := h a (List.mem_cons_self _ _) hp
      simp only [List.filter_cons, hp, hq, if_true, List.length_cons]
      omega
    · by_cases hq : q a = true
      · simp only [List.filter_cons, hp, hq, if_true, Bool.false_eq_true, if_false,
          List.length_cons]
        omega
      · simp only [List.filter_cons, hp, hq, Bool.false_eq_true, if_false]
        exact iht

theorem windowInvariant_mono (cfg : OTPConfig) (s : Store) (last later : Time)
    (h : windowInvariant cfg s last) (hl : last ≤ later) : windowInvariant cfg s later :=
  ⟨fun a ha => le_trans (h.1 a ha) hl, h.2⟩

theorem windowInvariant_of_attempts (cfg : OTPConfig) (s s1 : Store) (last : Time)
    (h : windowInvariant cfg s last) (ha : s1.otp_attempts = s.otp_attempts) :
    windowInvariant cfg s1 last := by
  unfold windowInvariant attemptsInWindow at *
  rw [ha]
  exact h

/-- A `SendOTP` call keeps the invariant: a new attempt is only written after the check counted
fewer than `MaxAttempts` attempts, and every older attempt in a window around the new one was
among those counted. -/
theorem windowInvariant_send (cfg : OTPConfig) (env : SendEnv) (s : Store) (phone : String)
    (last : Time) (h : windowInvariant cfg s last) (hl : last ≤ env.checkNow)
    (hc : env.clockOrdered) :
    windowInvariant cfg (OTPService.SendOTP cfg env s phone).1 env.attemptInsert.now := by
  obtain ⟨c1, c2, c3⟩ := hc
  have hle : last ≤ env.attemptInsert.now := by linarith
  rcases sendOTP_effect cfg env s phone with h1 | ⟨code, hcount, _, _, h1 | h1⟩
  · rw [h1]
    exact windowInvariant_mono cfg s _ _ h hle
  · exact windowInvariant_of_attempts cfg s _ _ (windowInvariant_mono cfg s _ _ h hle) h1
  · constructor
    · intro a ha
      rw [h1] at ha
      rcases List.mem_append.mp ha with ha | ha
      · exact le_trans (h.1 a ha) hle
      · simp only [List.mem_singleton] at ha
        subst ha
        exact le_refl _
    · intro p t
      unfold attemptsInWindow
      rw [h1, List.filter_append, List.length_append]
      have hold := h.2 p t
      unfold attemptsInWindow at hold
      by_cases hin : (phone == p && decide (t - cfg.RateWindow < env.attemptInsert.now)
          && decide (env.attemptInsert.now ≤ t)) = true
      · -- the new attempt lies in the window: the old ones there were all counted by the check
        simp only [Bool.and_eq_true, beq_iff_eq, decide_eq_true_eq] at hin
        obtain ⟨⟨hp, hlo⟩, hhi⟩ := hin
        subst hp
        have hsub : (s.otp_attempts.filter
            (fun a => a.PhoneNumber == phone && decide (t - cfg.RateWindow < a.AttemptTime)
              && decide (a.AttemptTime ≤ t))).length ≤
            (recentAttempts s phone (env.checkNow + -cfg.RateWindow)).length := by
          unfold recentAttempts
          apply length_filter_mono
          intro x hx hxp
          simp only [Bool.and_eq_true, beq_iff_eq, decide_eq_true_eq] at hxp ⊢
          refine ⟨hxp.1.1, ?_⟩
          have := hxp.1.2
          linarith
        have hone : ([(⟨env.attemptInsert.id, phone, env.attemptInsert.now⟩ : OTPAttempt)].filter
            (fun a => a.PhoneNumber == phone && decide (t - cfg.RateWindow < a.AttemptTime)
              && decide (a.AttemptTime ≤ t))).length ≤ 1 := by
          have := List.length_filter_le
            (fun a : OTPAttempt => a.PhoneNumber == phone &&
              decide (t - cfg.RateWindow < a.AttemptTime) && decide (a.AttemptTime ≤ t))
            [(⟨env.attemptInsert.id, phone, env.attemptInsert.now⟩ : OTPAttempt)]
          simpa using this
        push_cast
        omega
      · have hnone : ([(⟨env.attemptInsert.id, phone, env.attemptInsert.now⟩ : OTPAttempt)].filter
            (fun a => a.PhoneNumber == p && decide (t - cfg.RateWindow < a.AttemptTime)
              && decide (a.AttemptTime ≤ t))) = [] := by
          rw [List.filter_eq_nil_iff]
          intro x hx
          simp only [List.mem_singleton] at hx
          subst hx
          exact hin
        rw [hnone]
        simpa using hold

theorem windowInvariant_run (digitTable : Char → Bool) (cfg : OTPConfig) (ops : List Operation) :
    ∀ (s : Store) (last : Time), windowInvariant cfg s last → clockChain last ops →
      ∃ later, windowInvariant cfg (runAll digitTable cfg ops s) later := by
  induction ops with
  | nil => intro s last h _; exact ⟨last, h⟩
  | cons op ops ih =>
    intro s last h hc
    cases op with
    | send env phone =>
      obtain ⟨h1, h2, h3⟩ := hc
      exact ih _ _ (windowInvariant_send cfg env s phone last h h1 h2) h3
    | verify env phone code =>
      obtain ⟨h1, h2, h3⟩ := hc
      refine ih _ env.userInsert.now ?_ h3
      apply windowInvariant_of_attempts cfg s _ _
        (windowInvariant_mono cfg s _ _ h (le_trans h1 h2))
      exact (verifyOTP_otps digitTable env s phone code).2
    | cleanupOTPs fault now =>
      obtain ⟨h1, h3⟩ := hc
      refine ih _ now ?_ h3
      apply windowInvariant_of_attempts cfg s _ _ (windowInvariant_mono cfg s _ _ h h1)
      simp only [Operation.run, OTPService.CleanupExpiredOTPs, otpRepository.DeleteExpired]
      cases fault <;> rfl
    | cleanupAttempts fault before =>
      refine ih _ last ?_ hc
      simp only [Operation.run, otpAttemptRepository.DeleteOldAttempts]
      cases fault with
      | some t => exact h
      | none =>
        constructor
        · intro a ha
          exact h.1 a (List.mem_of_mem_filter ha)
        · intro p t
          have hold := h.2 p t
          unfold attemptsInWindow at hold ⊢
          simp only
          have hsub : ((s.otp_attempts.filter (fun a => !decide (a.AttemptTime < before))).filter
              (fun a => a.PhoneNumber == p && decide (t - cfg.RateWindow < a.AttemptTime)
                && decide (a.AttemptTime ≤ t))).length ≤
              (s.otp_attempts.filter
                (fun a => a.PhoneNumber == p && decide (t - cfg.RateWindow < a.AttemptTime)
                  && decide (a.AttemptTime ≤ t))).length :=
            (List.Sublist.filter _ (List.filter_sublist _)).length_le
          omega

/-! ## The claims, concluded -/

/-- Claim C21: for every call on the OTP store (`SendOTP`, `VerifyOTP`, the cleanups) a record
whose used flag is true before the call is afterwards still present, unchanged, or has been
deleted by the cleanup of expired records; and every record present afterwards is a record
from before, unchanged, or the new unused record of a `SendOTP`, or a formerly unused record
that the mark-used step of a `VerifyOTP` has set to used. -/
theorem used_flag_never_reverts (digitTable : Char → Bool)
    (cfg : OTPConfig) (op : Operation) (s : Store) :
    (∀ o ∈ s.otps, o.IsUsed = true →
      o ∈ (op.run digitTable cfg s).otps ∨
        (o ∉ (op.run digitTable cfg s).otps ∧ ∃ fault now, op = .cleanupOTPs fault now ∧ o.ExpiresAt < now)) ∧
    (∀ r ∈ (op.run digitTable cfg s).otps,
      r ∈ s.otps ∨
      (r.IsUsed = false ∧ ∃ env phone, op = .send env phone) ∨
      (r.IsUsed = true ∧ (∃ env phone code, op = .verify env phone code) ∧
        ∃ o ∈ s.otps, o.IsUsed = false ∧ r = { o with IsUsed := true })) := by
  cases op with
  | send env phone =>
    simp only [Operation.run]
    rcases sendOTP_effect cfg env s phone with h | ⟨code, _, h, _⟩
    · rw [h]
      exact ⟨fun o ho _ => Or.inl ho, fun r hr => Or.inl hr⟩
    · rw [h]
      refine ⟨fun o ho _ => Or.inl (List.mem_append_left _ ho), ?_⟩
      intro r hr
      rcases List.mem_append.mp hr with hr | hr
      · exact Or.inl hr
      · simp only [List.mem_singleton] at hr
        subst hr
        exact Or.inr (Or.inl ⟨rfl, env, phone, rfl⟩)
  | verify env phone code =>
    simp only [Operation.run]
    rcases (verifyOTP_otps digitTable env s phone code).1 with h | ⟨id, h⟩
    · rw [h]
      exact ⟨fun o ho _ => Or.inl ho, fun r hr => Or.inl hr⟩
    · rw [h]
      constructor
      · intro o ho hu
        left
        refine List.mem_map.mpr ⟨o, ho, ?_⟩
        by_cases hid : (o.ID == id) = true
        · simp only [hid, if_true]
          cases o
          simp only at hu
          subst hu
          rfl
        · simp [hid]
      · intro r hr
        obtain ⟨o, ho, rfl⟩ := List.mem_map.mp hr
        by_cases hid : (o.ID == id) = true
        · rw [if_pos hid]
          cases hu : o.IsUsed with
          | true =>
            left
            have : ({ o with IsUsed := true } : OTP) = o := by
              cases o
              simp only at hu
              subst hu
              rfl
            rw [this]
            exact ho
          | false =>
            right; right
            exact ⟨rfl, ⟨env, phone, code, rfl⟩, o, ho, hu, rfl⟩
        · simp only [hid, Bool.false_eq_true, if_false]
          exact Or.inl ho
  | cleanupOTPs fault now =>
    simp only [Operation.run, OTPService.CleanupExpiredOTPs, otpRepository.DeleteExpired]
    cases fault with
    | some t => exact ⟨fun o ho _ => Or.inl ho, fun r hr => Or.inl hr⟩
    | none =>
      simp only
      constructor
      · intro o ho _
        by_cases hexp : o.ExpiresAt < now
        · right
          exact ⟨by simp [hexp], none, now, rfl, hexp⟩
        · left
          simp [ho, hexp]
      · intro r hr
        exact Or.inl (List.mem_of_mem_filter hr)
  | cleanupAttempts fault before =>
    simp only [Operation.run, otpAttemptRepository.DeleteOldAttempts]
    cases fault with
    | some t => exact ⟨fun o ho _ => Or.inl ho, fun r hr => Or.inl hr⟩
    | none => exact ⟨fun o ho _ => Or.inl ho, fun r hr => Or.inl hr⟩

/-- Witness of C21: a verification on a store whose record is already used. -/
theorem used_flag_never_reverts_witness :
    (⟨1, demoPhone, demoCode, 0, 2 * minute, true⟩ : OTP) ∈
        ((Operation.verify (demoVerify minute) demoPhone demoCode).run noFurtherDigits LoadConfig usedStore).otps ∨
      ((⟨1, demoPhone, demoCode, 0, 2 * minute, true⟩ : OTP) ∉
          ((Operation.verify (demoVerify minute) demoPhone demoCode).run noFurtherDigits LoadConfig
            usedStore).otps ∧
        ∃ fault now, Operation.verify (demoVerify minute) demoPhone demoCode
            = .cleanupOTPs fault now ∧
          (⟨1, demoPhone, demoCode, 0, 2 * minute, true⟩ : OTP).ExpiresAt < now) :=
  (used_flag_never_reverts noFurtherDigits LoadConfig (.verify (demoVerify minute) demoPhone demoCode)
    usedStore).1 ⟨1, demoPhone, demoCode, 0, 2 * minute, true⟩ (by decide) rfl

/-- Claim C22: for every length `n ≥ 0`, when the random source delivers an index below 62 at
each of the `n` draws, `GenerateRandomString(n)` returns a string of exactly `n` characters
(and bytes), each from the 62 different characters of `charset`. -/
theorem generateRandomString_charset (draw : Nat → Option Nat) (n : Int) (h0 : 0 ≤ n)
    (hd : ∀ i : Nat, (i : Int) < n → ∃ k, draw i = some k ∧ k < 62) :
    ∃ s, GenerateRandomString draw n = some s ∧ (s.data.length : Int) = n ∧
      (goLen s.data : Int) = n ∧ (∀ c ∈ s.data, c ∈ charset.data) ∧
      charset.data.length = 62 ∧ charset.data.Nodup := by
  obtain ⟨l, hl, hlen, hmem⟩ := fillBytes_ok draw n.toNat 0 (fun j _ hj => hd j (by omega))
  have hlen2 : (l.length : Int) = n := by omega
  refine ⟨String.mk l, ?_, hlen2, ?_, hmem, by decide, by decide⟩
  · simp [GenerateRandomString, not_lt.mpr h0, hl]
  · rw [goLen_eq_length l (fun c hc => charset_ascii c (hmem c hc))]
    exact hlen2

/-- Witness of C22: length 5. -/
theorem generateRandomString_charset_witness :
    ∃ s, GenerateRandomString (fun i => some (i * 7 % 62)) 5 = some s ∧
      (s.data.length : Int) = 5 ∧ (goLen s.data : Int) = 5 ∧
      (∀ c ∈ s.data, c ∈ charset.data) ∧ charset.data.length = 62 ∧ charset.data.Nodup :=
  generateRandomString_charset (fun i => some (i * 7 % 62)) 5 (by decide)
    (fun i _ => ⟨i * 7 % 62, rfl, Nat.mod_lt _ (by decide)⟩)

/-- Claim C23: starting from an empty attempt log, with `MaxAttempts ≥ 1` and a clock that never
runs backwards, after any sequence of `SendOTP`, `VerifyOTP` and cleanup calls the attempt rows
of any phone number with attempt time in `(t - RateWindow, t]` number at most `MaxAttempts`,
for every `t`. -/
theorem sliding_window_invariant (digitTable : Char → Bool)
    (cfg : OTPConfig) (ops : List Operation) (s : Store)
    (start : Time) (phone : String) (t : Time)
    (hempty : s.otp_attempts = [])
    (hmax : 1 ≤ cfg.MaxAttempts)
    (hclock : clockChain start ops) :
    ((attemptsInWindow (runAll digitTable cfg ops s) phone cfg.RateWindow t).length : Int)
      ≤ cfg.MaxAttempts := by
  have h0 : windowInvariant cfg s start := by
    constructor
    · intro a ha
      rw [hempty] at ha
      cases ha
    · intro p u
      unfold attemptsInWindow
      rw [hempty]
      simp only [List.filter_nil, List.length_nil]
      push_cast
      omega
  obtain ⟨later, h⟩ := windowInvariant_run digitTable cfg ops s start h0 hclock
  exact h.2 phone t

/-- Witness of C23: the calls of `demoOps` on the empty store. -/
theorem sliding_window_invariant_witness :
    ((attemptsInWindow (runAll noFurtherDigits LoadConfig demoOps emptyStore) demoPhone LoadConfig.RateWindow
      (3 * minute)).length : Int) ≤ LoadConfig.MaxAttempts :=
  sliding_window_invariant noFurtherDigits LoadConfig demoOps emptyStore 0 demoPhone (3 * minute) rfl
    (by decide) (by
      simp only [demoOps, clockChain, SendEnv.clockOrdered, demoSend, demoVerify]
      decide)

/-- Counterexample to C24: the driver fails on the user lookup, `VerifyOTP` returns that error,
yet the code has been marked used and a retry fails with `ErrInvalidOTP`. -/
theorem verifyOTP_failure_spends_code :
    OTPService.VerifyOTP noFurtherDigits userLookupDown singleStore demoPhone demoCode =
      (spentStore, .error (.plain "failed to get user by phone: connection reset")) ∧
    spentStore ≠ singleStore ∧
    OTPService.VerifyOTP noFurtherDigits (demoVerify minute) spentStore demoPhone demoCode =
      (spentStore, .error (.app ErrInvalidOTP)) := by
  decide

/-- Claim C24, amended: if `VerifyOTP` returns an error, the users and the attempt log are
unchanged, and either the whole store is unchanged, which is always so when the error is a
domain error, or the error is a plain storage error of the user resolution after a successful
mark-used update, and the store differs only in that the matched record is marked used. -/
theorem verifyOTP_failure_effect (digitTable : Char → Bool)
    (env : VerifyEnv) (s s1 : Store) (phone code : String)
    (e : GoError)
    (h : OTPService.VerifyOTP digitTable env s phone code = (s1, .error e)) :
    s1.users = s.users ∧ s1.otp_attempts = s.otp_attempts ∧
    (s1 = s ∨
      ((∃ text, e = .plain text) ∧
        ∃ otp, otpRepository.GetValidOTP env.findFault env.now s phone code = .ok otp ∧
          otpRepository.MarkAsUsed env.markFault s otp.ID = .ok s1 ∧
          s1.otps = s.otps.map (fun o => if o.ID == otp.ID then { o with IsUsed := true }
                                         else o))) ∧
    ((∃ a, e = .app a) → s1 = s) := by
  have h1 : (OTPService.VerifyOTP digitTable env s phone code).1 = s1 := by rw [h]
  have h2 : (OTPService.VerifyOTP digitTable env s phone code).2 = .error e := by rw [h]
  rcases verifyOTP_effect digitTable env s phone code with hs | ⟨otp, s2, hg, hm, ⟨hs, hr⟩ | ⟨u, _, hr⟩⟩
  · rw [h1] at hs
    subst hs
    exact ⟨rfl, rfl, Or.inl rfl, fun _ => rfl⟩
  · rw [h1] at hs
    subst hs
    have hs2 := markAsUsed_ok _ _ _ _ hm
    rcases hr with ⟨u, hr⟩ | ⟨text, hr⟩
    · rw [h2] at hr
      cases hr
    · rw [h2] at hr
      simp only [Except.error.injEq] at hr
      subst hr
      refine ⟨by rw [hs2], by rw [hs2], Or.inr ⟨⟨text, rfl⟩, otp, hg, hm, by rw [hs2]⟩, ?_⟩
      rintro ⟨a, ha⟩
      cases ha
  · rw [h2] at hr
    cases hr

/-- Witness of C24: the failed user lookup on `singleStore`. -/
theorem verifyOTP_failure_effect_witness :
    spentStore.users = singleStore.users ∧ spentStore.otp_attempts = singleStore.otp_attempts ∧
    (spentStore = singleStore ∨
      ((∃ text, GoError.plain "failed to get user by phone: connection reset" = .plain text) ∧
        ∃ otp, otpRepository.GetValidOTP userLookupDown.findFault userLookupDown.now singleStore
            demoPhone demoCode = .ok otp ∧
          otpRepository.MarkAsUsed userLookupDown.markFault singleStore otp.ID = .ok spentStore ∧
          spentStore.otps = singleStore.otps.map
            (fun o => if o.ID == otp.ID then { o with IsUsed := true } else o))) ∧
    ((∃ a, GoError.plain "failed to get user by phone: connection reset" = .app a) →
      spentStore = singleStore) :=
  verifyOTP_failure_effect noFurtherDigits userLookupDown singleStore spentStore demoPhone demoCode
    (.plain "failed to get user by phone: connection reset") (by decide)

end GoAuth
